import Mathlib

/-!
Verification of the Steam depot plugin pure core against its specification.

The definitions below are shallow embeddings of the TypeScript functions in
`src/services/steam-depot-service.ts`, `src/services/manifesthub-service.ts`
and `src/services/multi-source-service.ts`.  Machine integers are modelled as
`Nat` (JS bitwise operators work on nonnegative 32-bit values here), byte
buffers as `List Nat`, and network / filesystem effects are modelled by
passing the observed responses explicitly as environment records.
-/

namespace SteamDepot

/-! ### CRC-32 (function `crc32`, steam-depot-service.ts lines 471-487) -/

/-- The reflected CRC-32 polynomial used by the source (`0xEDB88320`). -/
def crcPoly : Nat := 0xEDB88320

/-- One iteration of the table-generation inner loop:
`c = (c & 1) ? (0xEDB88320 ^ (c >>> 1)) : (c >>> 1)`. -/
def crcBitStep (c : Nat) : Nat :=
  if c % 2 = 1 then crcPoly ^^^ (c / 2) else c / 2

/-- Entry `i` of the 256-entry lookup table: eight iterations of the
bit step applied to `i` (the `for (j = 0; j < 8; j++)` loop). -/
def crcTableEntry (i : Nat) : Nat := crcBitStep^[8] i

/-- One byte of the main loop:
`crc = table[(crc ^ buf[i]) & 0xFF] ^ (crc >>> 8)`. -/
def crc32Update (crc b : Nat) : Nat :=
  crcTableEntry ((crc ^^^ b) &&& 0xFF) ^^^ (crc >>> 8)

/-- `crc32(buf)`: initial value `0xFFFFFFFF`, table-driven update per byte,
final XOR with `0xFFFFFFFF` (the `>>> 0` cast is the identity on the
nonnegative values arising here). -/
def crc32 (buf : List Nat) : Nat :=
  (buf.foldl crc32Update 0xFFFFFFFF) ^^^ 0xFFFFFFFF

/-- Specification-side reference: the standard reflected CRC-32 computed
bit-at-a-time without a lookup table (xor the byte into the register, then
eight conditional shift/xor steps with polynomial `0xEDB88320`). -/
def crc32BitwiseUpdate (crc b : Nat) : Nat := crcBitStep^[8] (crc ^^^ b)

/-- Reference CRC-32 over a byte list, bit-at-a-time. -/
def crc32Reference (buf : List Nat) : Nat :=
  (buf.foldl crc32BitwiseUpdate 0xFFFFFFFF) ^^^ 0xFFFFFFFF

/-! ### ZIP archive writer (`createZipFromDir`, steam-depot-service.ts 376-466)

The deflate compressor (`zlib.deflateRawSync`) is an external library, so the
writer is parametrised over an arbitrary compression function.  Byte buffers
are `List Nat`; `Buffer.writeUInt16LE`/`writeUInt32LE` become overwrites of
little-endian byte groups at a fixed position in a zero-initialised list. -/

/-- Little-endian 16-bit serialization (as stored by `writeUInt16LE`). -/
def u16le (n : Nat) : List Nat := [n % 256, n / 256 % 256]

/-- Little-endian 32-bit serialization (as stored by `writeUInt32LE`). -/
def u32le (n : Nat) : List Nat :=
  [n % 256, n / 256 % 256, n / 65536 % 256, n / 16777216 % 256]

/-- The 30-byte local file header built by the source sequence of
`writeUInt…LE` calls into `Buffer.alloc(30)`.  The writes land at the
consecutive offsets 0 (signature), 4 (version needed), 6 (flags),
8 (method = 8, deflate), 10 (mod time), 12 (mod date), 14 (CRC-32),
18 (compressed size), 22 (uncompressed size), 26 (name length),
28 (extra length), covering the buffer exactly, so the buffer contents
are this concatenation. -/
def localFileHeader (crc csize usize nameLen : Nat) : List Nat :=
  u32le 0x04034b50 ++ u16le 20 ++ u16le 0 ++ u16le 8 ++ u16le 0 ++ u16le 0 ++
    u32le crc ++ u32le csize ++ u32le usize ++ u16le nameLen ++ u16le 0

/-- The 46-byte central directory file header built by the source: writes at
offsets 0 (signature), 4 (version made by), 6 (version needed), 8 (flags),
10 (method), 12 (time), 14 (date), 16 (CRC-32), 20 (compressed size),
24 (uncompressed size), 28 (name length), 30 (extra length),
32 (comment length), 34 (disk number), 36 (internal attributes),
38 (external attributes), 42 (local header offset). -/
def centralFileHeader (crc csize usize nameLen offset : Nat) : List Nat :=
  u32le 0x02014b50 ++ u16le 20 ++ u16le 20 ++ u16le 0 ++ u16le 8 ++ u16le 0 ++
    u16le 0 ++ u32le crc ++ u32le csize ++ u32le usize ++ u16le nameLen ++
    u16le 0 ++ u16le 0 ++ u16le 0 ++ u16le 0 ++ u32le 0 ++ u32le offset

/-- The 22-byte end-of-central-directory record built by the source: writes
at offsets 0 (signature), 4 (disk number), 6 (central-directory start disk),
8 and 10 (record counts), 12 (central-directory size),
16 (central-directory offset), 20 (comment length). -/
def endOfCentralDirectory (count cdSize cdOffset : Nat) : List Nat :=
  u32le 0x06054b50 ++ u16le 0 ++ u16le 0 ++ u16le count ++ u16le count ++
    u32le cdSize ++ u32le cdOffset ++ u16le 0

/-- An input to the archive writer: the UTF-8 bytes of the file relative
path (as produced by `collectFiles`) and its content bytes. -/
structure ZipEntry where
  nameBytes : List Nat
  content : List Nat
deriving DecidableEq

/-- The replace-backslashes-with-slashes step of the source, encoded as UTF-8: the backslash
byte `0x5C` is replaced by the forward-slash byte `0x2F` (backslash is ASCII,
so the string-level replace is exactly this byte-level map). -/
def zipEntryName (e : ZipEntry) : List Nat :=
  e.nameBytes.map (fun b => if b = 92 then 47 else b)

/-- The fold state of the writer loop: accumulated local sections,
accumulated central directory, running offset. -/
def createZipStep (deflate : List Nat → List Nat)
    (st : List Nat × List Nat × Nat) (f : ZipEntry) : List Nat × List Nat × Nat :=
  let compressed := deflate f.content
  let fileNameBuf := zipEntryName f
  let crc := crc32 f.content
  let localHeader := localFileHeader crc compressed.length f.content.length fileNameBuf.length
  let centralHeader :=
    centralFileHeader crc compressed.length f.content.length fileNameBuf.length st.2.2
  (st.1 ++ (localHeader ++ fileNameBuf ++ compressed),
   st.2.1 ++ (centralHeader ++ fileNameBuf),
   st.2.2 + localHeader.length + fileNameBuf.length + compressed.length)

/-- `createZipFromDir`, pure core: iterate over the collected files
accumulating local sections, central directory and offset, then append the
central directory and the end record.  `centralDirSize` is the total length
of the accumulated central-directory buffers. -/
def createZipFromDir (deflate : List Nat → List Nat) (files : List ZipEntry) : List Nat :=
  let st := files.foldl (createZipStep deflate) ([], [], 0)
  st.1 ++ st.2.1 ++ endOfCentralDirectory files.length st.2.1.length st.2.2

/-! Specification-side layout, following §4.8 of the spec: explicit
concatenation of per-entry records, with each central record carrying the
prefix-sum byte offset of the local record of its entry (rather than the
source running mutable offset). -/

/-- Spec: the local record of one entry — the 30-byte header, then the
entry name, then the raw-deflate-compressed content. -/
def specLocalRecord (deflate : List Nat → List Nat) (e : ZipEntry) : List Nat :=
  localFileHeader (crc32 e.content) (deflate e.content).length
      e.content.length (zipEntryName e).length ++ zipEntryName e ++ deflate e.content

/-- Spec: total byte size contributed by the local record of one entry. -/
def specEntrySize (deflate : List Nat → List Nat) (e : ZipEntry) : Nat :=
  30 + (zipEntryName e).length + (deflate e.content).length

/-- Spec: the central record of one entry at local-header offset `offset` —
the 46-byte header mirroring the local header plus the offset, then the name. -/
def specCentralRecord (deflate : List Nat → List Nat) (e : ZipEntry) (offset : Nat) :
    List Nat :=
  centralFileHeader (crc32 e.content) (deflate e.content).length
      e.content.length (zipEntryName e).length offset ++ zipEntryName e

/-- Spec: the central directory — one record per entry, entry `i` at the
prefix-sum offset of the local records of all earlier entries, shifted by `o0`. -/
def specCentralDirectory (deflate : List Nat → List Nat) :
    List ZipEntry → Nat → List Nat
  | [], _ => []
  | e :: rest, o0 =>
    specCentralRecord deflate e o0 ++
      specCentralDirectory deflate rest (o0 + specEntrySize deflate e)

/-- Spec: the full archive — all local records, then the central directory
(first entry at offset 0), then the 22-byte end record holding the entry
count twice, the central-directory size (computed independently as a sum of
per-record sizes) and the central-directory offset (the total size of all
local records). -/
def createZipSpec (deflate : List Nat → List Nat) (files : List ZipEntry) : List Nat :=
  (files.map (specLocalRecord deflate)).flatten ++
    specCentralDirectory deflate files 0 ++
    endOfCentralDirectory files.length
      ((files.map (fun e => 46 + (zipEntryName e).length)).sum)
      ((files.map (specEntrySize deflate)).sum)

/-! ### Script generator (`generateManifestHubLua`, manifesthub-service.ts 1192-1246)

Depot/manifest identifiers are decimal strings.  A JS object with such keys
is modelled as an association list with distinct keys in iteration order;
`Set` membership checks become list membership.  `parseInt` on the all-digit
identifiers handled here is `String.toNat?` (defaulting to 0 on the
non-digit strings that cannot reach this code). -/

/-- One depot decryption key record. -/
structure DepotKey where
  depotId : String
  decryptionKey : String
deriving DecidableEq

/-- A JS object mapping depot id strings to manifest id strings, as an
association list in iteration order (keys unique). -/
abbrev ManifestMap := List (String × String)

/-- `parseInt` on a decimal identifier string. -/
def parseIntNat (s : String) : Nat := s.toNat?.getD 0

/-- `Object.keys(manifests).sort((a, b) => parseInt(a) - parseInt(b))`:
the key list sorted ascending by numeric value (stable merge sort, matching
the stable JS `Array.prototype.sort`). -/
def sortDepotIds (manifests : ManifestMap) : List String :=
  (manifests.map Prod.fst).mergeSort (fun a b => decide (parseIntNat a ≤ parseIntNat b))

/-- `depotKeys.find(k => k.depotId === id)`. -/
def findKey (depotKeys : List DepotKey) (id : String) : Option DepotKey :=
  depotKeys.find? (fun k => k.depotId == id)

/-- The unlock directive with a key. -/
def addappidKeyLine (id key : String) : String :=
  "addappid(" ++ id ++ ", 1, \"" ++ key ++ "\")"

/-- The key-less unlock directive. -/
def addappidLine (id : String) : String := "addappid(" ++ id ++ ", 1)"

/-- The manifest-pinning directive. -/
def setManifestidLine (id mid : String) : String :=
  "setManifestid(" ++ id ++ ", \"" ++ mid ++ "\")"

/-- The line pushed for one identifier: with its key when the key list has
one, else key-less. -/
def depotUnlockLine (depotKeys : List DepotKey) (id : String) : String :=
  match findKey depotKeys id with
  | some k => addappidKeyLine id k.decryptionKey
  | none => addappidLine id

/-- The depot loop of the source: for each id, skip it when already in the
seen set, else push its unlock line and add it to the seen set. -/
def depotLoop (depotKeys : List DepotKey) :
    List String → List String → List String → List String × List String
  | [], lines, added => (lines, added)
  | id :: rest, lines, added =>
    if id ∈ added then depotLoop depotKeys rest lines added
    else depotLoop depotKeys rest (lines ++ [depotUnlockLine depotKeys id]) (added ++ [id])

/-- The DLC loop of the source: key-less unlock line per unseen id. -/
def dlcLoop : List String → List String → List String → List String × List String
  | [], lines, added => (lines, added)
  | id :: rest, lines, added =>
    if id ∈ added then dlcLoop rest lines added
    else dlcLoop rest (lines ++ [addappidLine id]) (added ++ [id])

/-- JS object indexing `manifests[id]` on the association list. -/
def mLookup (manifests : ManifestMap) (id : String) : Option String :=
  (manifests.find? (fun p => p.1 == id)).map Prod.snd

/-- The `setManifestid` loop of the source: for each sorted depot id, pin
its manifest when the looked-up manifest id is truthy (a non-empty string). -/
def pinLines (manifests : ManifestMap) (ids : List String) : List String :=
  ids.filterMap (fun d =>
    match mLookup manifests d with
    | some mid => if mid = "" then none else some (setManifestidLine d mid)
    | none => none)

/-- `generateManifestHubLua`, as the list of emitted lines: primary unlock
directive, depot loop over the numerically sorted manifest keys, optional
DLC loop, optional pinning loop. -/
def generateManifestHubLuaLines (appId : String) (depotKeys : List DepotKey)
    (manifests : ManifestMap) (dlcIds : Option (List String)) (setManifestId : Bool) :
    List String :=
  let firstLine := depotUnlockLine depotKeys appId
  let depotIds := sortDepotIds manifests
  let st1 := depotLoop depotKeys depotIds [firstLine] [appId]
  let st2 :=
    match dlcIds with
    | some ds => dlcLoop ds st1.1 st1.2
    | none => st1
  if setManifestId then st2.1 ++ pinLines manifests depotIds else st2.1

/-- `generateManifestHubLua`: the emitted lines joined by newlines. -/
def generateManifestHubLua (appId : String) (depotKeys : List DepotKey)
    (manifests : ManifestMap) (dlcIds : Option (List String)) (setManifestId : Bool) :
    String :=
  String.intercalate "\n" (generateManifestHubLuaLines appId depotKeys manifests dlcIds setManifestId)

/-! Specification-side description of the generated script (§4.7). -/

/-- A directive of the unlock script: an unlock directive with an optional
key, or a manifest-pinning directive. -/
inductive LuaCmd where
  | unlock (id : String) (key : Option String)
  | pin (id : String) (manifestId : String)
deriving DecidableEq

/-- Rendering a directive to its text line. -/
def renderLuaCmd : LuaCmd → String
  | .unlock id (some key) => addappidKeyLine id key
  | .unlock id none => addappidLine id
  | .pin id mid => setManifestidLine id mid

/-- The key known for an identifier, if any. -/
def keyFor (depotKeys : List DepotKey) (id : String) : Option String :=
  (findKey depotKeys id).map DepotKey.decryptionKey

/-- Remove duplicates keeping the first occurrence of each element. -/
def dedupFirst : List String → List String
  | [] => []
  | a :: rest => a :: dedupFirst (rest.filter (fun b => decide (b ≠ a)))
termination_by l => l.length
decreasing_by
  simp only [List.length_cons]
  exact Nat.lt_succ_of_le (List.length_filter_le _ _)

/-- Spec (§4.7): one unlock directive for the primary id (keyed when known),
then one per manifest-map depot id in ascending numeric order skipping the
primary id, each keyed when known; then one key-less directive per DLC id
not already emitted; then, only when the flag is set, one pinning directive
per manifest-map depot id in the same order. -/
def luaSpecCmds (appId : String) (depotKeys : List DepotKey) (manifests : ManifestMap)
    (dlcIds : Option (List String)) (setManifestId : Bool) : List LuaCmd :=
  let sorted := sortDepotIds manifests
  LuaCmd.unlock appId (keyFor depotKeys appId) ::
    ((sorted.filter (fun d => decide (d ≠ appId))).map
        (fun d => LuaCmd.unlock d (keyFor depotKeys d)) ++
      (dedupFirst ((dlcIds.getD []).filter
          (fun i => decide (i ≠ appId ∧ i ∉ sorted)))).map (fun i => LuaCmd.unlock i none) ++
      (if setManifestId then
        sorted.filterMap (fun d => (mLookup manifests d).map (fun mid => LuaCmd.pin d mid))
      else []))

/-- The identifiers carrying unlock directives, in emission order. -/
def unlockIdsOf (cmds : List LuaCmd) : List String :=
  cmds.filterMap (fun c =>
    match c with
    | .unlock id _ => some id
    | .pin _ _ => none)

/-! ### VDF key parser (`parseVdfForDepotKeys`, steam-depot-service.ts 136-174)

The line-oriented scanner: detect the `"depots"` marker, then inside the
section track the current depot id (a quoted all-digit line) and collect a
key for every `"DecryptionKey" "<hex>"` line.  The two regular expressions
are implemented as deterministic matchers (the character classes involved
are disjoint from the delimiters, so greedy scanning is exact). -/

/-- The character class `[A-Fa-f0-9]`. -/
def isHexChar (c : Char) : Bool :=
  c.isDigit || ('a' ≤ c && c ≤ 'f') || ('A' ≤ c && c ≤ 'F')

/-- Split on every newline character (the split of the source). -/
def splitLinesAux : List Char → List Char → List (List Char)
  | [], acc => [acc.reverse]
  | c :: rest, acc =>
    if c = '\n' then acc.reverse :: splitLinesAux rest []
    else splitLinesAux rest (c :: acc)

/-- The lines of a string, as character lists. -/
def splitLines (s : String) : List (List Char) := splitLinesAux s.toList []

/-- Trim leading and trailing whitespace (the trim of the source). -/
def trimChars (cs : List Char) : List Char :=
  ((cs.dropWhile Char.isWhitespace).reverse.dropWhile Char.isWhitespace).reverse

/-- ASCII lowercasing of a line (the toLowerCase of the source). -/
def lowerChars (cs : List Char) : List Char := cs.map Char.toLower

/-- Matcher for the anchored pattern quote-digits-quote with at least one
digit, returning the digits. -/
def matchQuotedDigits (cs : List Char) : Option String :=
  match cs with
  | '"' :: rest =>
    let mid := rest.dropLast
    if rest.getLast? == some '"' && !mid.isEmpty && mid.all Char.isDigit then
      some (String.mk mid)
    else none
  | _ => none

/-- Strip a case-insensitive keyword (given in lowercase) from the front of
a character list. -/
def stripKeywordCaseless : List Char → List Char → Option (List Char)
  | [], cs => some cs
  | _ :: _, [] => none
  | p :: ps, c :: cs => if c.toLower = p then stripKeywordCaseless ps cs else none

/-- Matcher for the anchored case-insensitive pattern: quoted keyword
DecryptionKey, one or more whitespace characters, then a quoted non-empty
hex string; returns the hex string. -/
def matchDecryptionKeyLine (cs : List Char) : Option String :=
  match cs with
  | '"' :: cs1 =>
    match stripKeywordCaseless "decryptionkey".toList cs1 with
    | some ('"' :: cs2) =>
      let ws := cs2.takeWhile Char.isWhitespace
      let cs3 := cs2.dropWhile Char.isWhitespace
      if ws.isEmpty then none
      else
        match cs3 with
        | '"' :: cs4 =>
          let hex := cs4.takeWhile isHexChar
          let cs5 := cs4.dropWhile isHexChar
          if hex.isEmpty then none
          else
            match cs5 with
            | ['"'] => some (String.mk hex)
            | _ => none
        | _ => none
    | _ => none
  | _ => none

/-- One line of the VDF scanner acting on the state
(collected keys, current depot id, inside-depots flag). -/
def parseVdfStep (st : List DepotKey × Option String × Bool) (line : List Char) :
    List DepotKey × Option String × Bool :=
  let trimmed := trimChars line
  if lowerChars trimmed = "\"depots\"".toList then (st.1, st.2.1, true)
  else if !st.2.2 then st
  else
    match matchQuotedDigits trimmed with
    | some d => (st.1, some d, st.2.2)
    | none =>
      match st.2.1 with
      | some depotId =>
        match matchDecryptionKeyLine trimmed with
        | some key => (st.1 ++ [⟨depotId, key⟩], st.2.1, st.2.2)
        | none => st
      | none => st

/-- `parseVdfForDepotKeys`: split on newlines and run the two-state scan. -/
def parseVdfForDepotKeys (content : String) : List DepotKey :=
  ((splitLines content).foldl parseVdfStep ([], none, false)).1

/-! ### Lua key parser (`parseLuaForDepotKeys`, multi-source-service.ts)

The global regex for the key-bearing directive, as a left-to-right scanner
that, at each position, either recognises a full directive (and continues
after it, as the regex lastIndex does) or advances one character.  The fuel
argument is the input length; every step consumes at least one character,
so the fuel never runs out before the input does. -/

/-- Strip an exact keyword from the front of a character list. -/
def stripKeywordExact : List Char → List Char → Option (List Char)
  | [], cs => some cs
  | _ :: _, [] => none
  | p :: ps, c :: cs => if c = p then stripKeywordExact ps cs else none

/-- Match the directive pattern (name, open paren, digits, comma, optional
whitespace, the digit one, comma, optional whitespace, quoted non-empty key,
close paren) at the current position. -/
def matchAddappidAt (cs : List Char) : Option (String × String × List Char) :=
  match stripKeywordExact "addappid(".toList cs with
  | none => none
  | some cs1 =>
    let ds := cs1.takeWhile Char.isDigit
    let cs2 := cs1.dropWhile Char.isDigit
    if ds.isEmpty then none
    else
      match cs2 with
      | ',' :: cs3 =>
        let cs4 := cs3.dropWhile Char.isWhitespace
        match cs4 with
        | '1' :: ',' :: cs5 =>
          let cs6 := cs5.dropWhile Char.isWhitespace
          match cs6 with
          | '"' :: cs7 =>
            let key := cs7.takeWhile (fun c => decide (c ≠ '"'))
            let cs8 := cs7.dropWhile (fun c => decide (c ≠ '"'))
            if key.isEmpty then none
            else
              match cs8 with
              | '"' :: ')' :: cs9 => some (String.mk ds, String.mk key, cs9)
              | _ => none
          | _ => none
        | _ => none
      | _ => none

/-- The scan loop over the content. -/
def parseLuaScan : Nat → List Char → List DepotKey
  | 0, _ => []
  | _, [] => []
  | fuel + 1, c :: rest =>
    match matchAddappidAt (c :: rest) with
    | some (d, k, after) => ⟨d, k⟩ :: parseLuaScan fuel after
    | none => parseLuaScan fuel rest

/-- `parseLuaForDepotKeys`. -/
def parseLuaForDepotKeys (luaContent : String) : List DepotKey :=
  parseLuaScan luaContent.toList.length luaContent.toList

/-! ### Tiered cache (manifesthub-service.ts: `loadDepotKeysFromCache` 850-874,
memory tier of `getDepotKeys` 1025-1046)

Timestamps are milliseconds as exact rationals (`Date.now()` and the file
modification time), the TTL is the configured `cacheExpireHours`; the age
comparisons of the source are exact arithmetic on these values. -/

/-- Observed environment of one `loadDepotKeysFromCache` call: file
existence, configured TTL, file modification time, current time, parsed
file payload. -/
structure FileCacheEnv where
  fileExists : Bool
  cacheExpireHours : ℚ
  mtimeMs : ℚ
  nowMs : ℚ
  fileData : List (String × String)
deriving DecidableEq

/-- `loadDepotKeysFromCache`: missing file, non-positive TTL, an age above
the TTL, or an empty parsed object give a miss; otherwise the payload. -/
def loadDepotKeysFromCache (env : FileCacheEnv) : Option (List (String × String)) :=
  if !env.fileExists then none
  else if env.cacheExpireHours ≤ 0 then none
  else if (env.nowMs - env.mtimeMs) / 3600000 > env.cacheExpireHours then none
  else if env.fileData.isEmpty then none
  else some env.fileData

/-- Observed environment of the memory-cache check at the top of
`getDepotKeys`. -/
structure MemCacheEnv where
  forceRefresh : Bool
  memCache : Option (List (String × String))
  memCacheTimeMs : ℚ
  cacheExpireHours : ℚ
  nowMs : ℚ
deriving DecidableEq

/-- The memory tier of `getDepotKeys`: a hit iff not forced, an entry is
present, and its age in hours is strictly below the TTL. -/
def getDepotKeysMemoryTier (env : MemCacheEnv) : Option (List (String × String)) :=
  if !env.forceRefresh then
    match env.memCache with
    | some table =>
      if (env.nowMs - env.memCacheTimeMs) / 3600000 < env.cacheExpireHours then some table
      else none
    | none => none
  else none

/-! ### Primary hub resolver (`fetchFromManifestHub`, manifesthub-service.ts
1257-1345)

Network effects are abstracted as an environment: the outcome of the bulk
key-table fetch (`getDepotKeys()`), of the manifest lookup
(`getManifests(appId)`), of the forced refresh (`getDepotKeys(true)`), and
the DLC list (`getDLCList` never throws).  `none` models a rejected
promise.  Alongside the result the model returns a trace counting the
manifest fetches, forced refreshes and DLC fetches performed.  Error
strings are abbreviated. -/

/-- JS `Set` insertion: append when not yet present. -/
def insertUnique (l : List String) (x : String) : List String :=
  if x ∈ l then l else l ++ [x]

/-- The ids whose keys this app needs: the app id itself, then every depot
id of the manifest map, in `Set` insertion order. -/
def hubRequiredIds (appId : String) (manifests : ManifestMap) : List String :=
  (manifests.map Prod.fst).foldl insertUnique [appId]

/-- Bulk key table indexing `allDepotKeys[id]`. -/
def tableLookup (t : List (String × String)) (id : String) : Option String :=
  (t.find? (fun p => p.1 == id)).map Prod.snd

/-- JS truthiness of the looked-up key (absent and the empty string are
falsy). -/
def keyTruthy (t : List (String × String)) (id : String) : Bool :=
  match tableLookup t id with
  | some k => !(k == "")
  | none => false

/-- First extraction pass: the required ids with truthy keys in the table. -/
def hubFirstPassKeys (appId : String) (manifests : ManifestMap)
    (table : List (String × String)) : List DepotKey :=
  (hubRequiredIds appId manifests).filterMap (fun id =>
    match tableLookup table id with
    | some k => if k == "" then none else some ⟨id, k⟩
    | none => none)

/-- The required ids with no truthy key in the table. -/
def hubMissingIds (appId : String) (manifests : ManifestMap)
    (table : List (String × String)) : List String :=
  (hubRequiredIds appId manifests).filter (fun id => !(keyTruthy table id))

/-- The result record of the hub resolver. -/
structure HubResult where
  success : Bool
  appId : String
  depotKeys : List DepotKey
  manifests : ManifestMap
  dlcIds : Option (List String) := none
  keySource : Option String := none
  error : Option String := none
deriving DecidableEq

/-- Observed environment of one `fetchFromManifestHub` call. -/
structure HubEnv where
  enabled : Bool
  includeDLC : Bool
  depotKeySource : String
  keysResp : Option (List (String × String))
  manifestsResp : Option ManifestMap
  refreshedResp : Option (List (String × String))
  dlcResp : List String

/-- Trace of the network operations the resolver performed. -/
structure HubTrace where
  refreshCalls : Nat
  manifestFetches : Nat
  dlcFetches : Nat
deriving DecidableEq

/-- `fetchFromManifestHub`: concurrent key-table and manifest fetch (a
failure of either is the catch branch), extraction of the relevant keys,
one forced refresh retried on the missing ids only when some key is
missing, optional DLC enrichment, success iff a manifest or a key was
found. -/
def fetchFromManifestHub (appId : String) (env : HubEnv) : HubResult × HubTrace :=
  if !env.enabled then
    ({ success := false, appId, depotKeys := [], manifests := [],
       error := some "not enabled" }, ⟨0, 0, 0⟩)
  else
    match env.keysResp, env.manifestsResp with
    | some table, some manifests =>
      let firstPass := hubFirstPassKeys appId manifests table
      let missing := hubMissingIds appId manifests table
      let keys2 :=
        if missing.isEmpty then firstPass
        else
          match env.refreshedResp with
          | some rt =>
            firstPass ++ missing.filterMap (fun id =>
              match tableLookup rt id with
              | some k => if k == "" then none else some (⟨id, k⟩ : DepotKey)
              | none => none)
          | none => firstPass
      let success := !manifests.isEmpty || !keys2.isEmpty
      ({ success, appId, depotKeys := keys2, manifests,
         dlcIds := if env.includeDLC then some env.dlcResp else none,
         keySource := some env.depotKeySource,
         error := if success then none else some "no data" },
       ⟨if missing.isEmpty then 0 else 1, 1, if env.includeDLC then 1 else 0⟩)
    | _, _ =>
      ({ success := false, appId, depotKeys := [], manifests := [],
         error := some "fetch failed" }, ⟨0, 1, 0⟩)

/-! ### Repository resolvers (steam-depot-service.ts 214-352)

Networking and the filesystem are abstracted into environments: HTTP status
codes, the branch commit sha, the recursive tree listing, a per-path
download outcome, and whether the final zip packaging succeeded.  Local
paths are represented by their base names, `path.join(tempDir, appId +
".zip")` by the string appId ++ ".zip".  Suffix, equality and basename
tests on paths are the character-list versions of the JS string
operations. -/

/-- Repository configuration: name, enabled flag, and type string
(Branch / Encrypted / Decrypted). -/
structure RepoConfig where
  name : String
  enabled : Bool
  rtype : String
deriving DecidableEq

/-- The `DownloadResult` record of the source (`sourceName` is the extra
field of `SourceDownloadResult`). -/
structure DownloadResult where
  success : Bool
  appId : String
  depotKeys : List DepotKey
  manifests : List String
  isBranch : Bool
  zipPath : Option String := none
  sourceRepo : Option String := none
  gameName : Option String := none
  error : Option String := none
  sourceName : Option String := none
deriving DecidableEq

/-- `downloadFromBranchRepo`: a 200 on the zipball endpoint stores the
archive and succeeds with empty key and manifest lists; 404 and other
statuses (and exceptions) leave the failure result. -/
def downloadFromBranchRepo (repo : RepoConfig) (appId : String) (status : Nat) :
    DownloadResult :=
  let base : DownloadResult :=
    { success := false, appId, depotKeys := [], manifests := [], isBranch := true }
  if status = 200 then
    { base with
      success := true,
      zipPath := some (appId ++ ".zip"),
      sourceRepo := some repo.name }
  else base

/-- An entry of the recursive git tree. -/
structure TreeItem where
  path : String
  itemType : String
deriving DecidableEq

/-- Observed environment of one `downloadFromNonBranchRepo` call. -/
structure NonBranchEnv where
  branchStatus : Nat
  commitSha : Option String
  treeStatus : Nat
  tree : List TreeItem
  fileContent : String → Option String
  zipOk : Bool

/-- Whether the character list ends with the given suffix. -/
def endsWithChars (cs suffix : List Char) : Bool :=
  cs.reverse.take suffix.length == suffix.reverse

/-- The base name of a slash-separated path. -/
def basenameChars (cs : List Char) : List Char :=
  (cs.reverse.takeWhile (fun c => decide (c ≠ '/'))).reverse

/-- The manifest files stored by the tree loop: every blob whose lowercased
path ends in the manifest suffix and whose download succeeded (stored under
its base name). -/
def nonBranchManifests (env : NonBranchEnv) : List String :=
  (env.tree.filter (fun it => it.itemType == "blob")).filterMap (fun it =>
    if endsWithChars (lowerChars it.path.toList) ".manifest".toList then
      (env.fileContent it.path).map (fun _ => String.mk (basenameChars it.path.toList))
    else none)

/-- The keys parsed by the tree loop: every blob whose lowercased path is
key.vdf or config.vdf and whose download succeeded, parsed and appended. -/
def nonBranchKeys (env : NonBranchEnv) : List DepotKey :=
  ((env.tree.filter (fun it => it.itemType == "blob")).filterMap (fun it =>
    if lowerChars it.path.toList == "key.vdf".toList ||
        lowerChars it.path.toList == "config.vdf".toList then
      (env.fileContent it.path).map parseVdfForDepotKeys
    else none)).flatten

/-- `downloadFromNonBranchRepo`: resolve the branch, fetch the tree, then
download every blob ending in the manifest suffix and parse every blob
named key.vdf or config.vdf (case-insensitively, appending all parsed
keys); generate the script when anything was found, and succeed only when
at least one manifest file was stored and the zip was written. -/
def downloadFromNonBranchRepo (repo : RepoConfig) (appId : String)
    (env : NonBranchEnv) : DownloadResult :=
  let base : DownloadResult :=
    { success := false, appId, depotKeys := [], manifests := [], isBranch := false }
  if env.branchStatus ≠ 200 then base
  else
    match env.commitSha with
    | none => base
    | some _ =>
      if env.treeStatus ≠ 200 then base
      else if !(nonBranchManifests env).isEmpty && env.zipOk then
        { base with
          success := true,
          depotKeys := nonBranchKeys env,
          manifests := nonBranchManifests env,
          zipPath := some (appId ++ ".zip"),
          sourceRepo := some repo.name }
      else
        { base with depotKeys := nonBranchKeys env, manifests := nonBranchManifests env }

/-! ### Auxiliary multi-source resolver (multi-source-service.ts) -/

/-- One mirror configuration. -/
structure SourceConfig where
  name : String
  enabled : Bool
  displayName : String
deriving DecidableEq

/-- Observed environment of one zip-mirror attempt. -/
structure ZipSourceEnv where
  downloaded : Bool
  extractOk : Bool
  files : List (String × String)

/-- `downloadFromZipSource`: download and extract the per-identifier
archive, collect every extracted file ending in the manifest suffix, parse
keys out of every extracted lua file and key-bearing VDF file, succeed when
a manifest or a key was found. -/
def downloadFromZipSource (appId : String) (source : SourceConfig)
    (env : ZipSourceEnv) : DownloadResult :=
  let base : DownloadResult :=
    { success := false, appId, depotKeys := [], manifests := [], isBranch := false,
      sourceName := some source.name }
  if !env.downloaded then { base with error := some "download failed" }
  else if !env.extractOk then { base with error := some "unzip failed" }
  else
    let allFiles := env.files
    let manifestFiles := (allFiles.map Prod.fst).filter
      (fun f => endsWithChars f.toList ".manifest".toList)
    let luaFiles := allFiles.filter (fun f => endsWithChars f.1.toList ".lua".toList)
    let vdfFiles := allFiles.filter (fun f =>
      lowerChars (basenameChars f.1.toList) == "key.vdf".toList ||
        lowerChars (basenameChars f.1.toList) == "config.vdf".toList)
    let depotKeys := (luaFiles.map (fun f => parseLuaForDepotKeys f.2)).flatten ++
      (vdfFiles.map (fun f => parseVdfForDepotKeys f.2)).flatten
    { base with
      success := !manifestFiles.isEmpty || !depotKeys.isEmpty,
      manifests := manifestFiles,
      depotKeys,
      sourceRepo := some source.displayName,
      error := if !manifestFiles.isEmpty || !depotKeys.isEmpty then none
        else some "nothing found" }

/-- Observed environment of one SteamAutoCracks V2 attempt: the info
endpoint status and the depot entries (depot id, optional public manifest
id). -/
structure SacV2Env where
  status : Nat
  depots : List (String × Option String)

/-- `downloadFromSteamAutoCracksV2`: query the key-value API, synthesize
one placeholder manifest record per depot with a public manifest id. -/
def downloadFromSteamAutoCracksV2 (appId : String) (env : SacV2Env) : DownloadResult :=
  let base : DownloadResult :=
    { success := false, appId, depotKeys := [], manifests := [], isBranch := false,
      sourceName := some "steamautocracks_v2" }
  if env.status ≠ 200 then { base with error := some "api failed" }
  else if env.depots.isEmpty then { base with error := some "no depots" }
  else
    let manifestMap := env.depots.filterMap (fun p => p.2.map (fun m => (p.1, m)))
    if manifestMap.isEmpty then { base with error := some "no manifests" }
    else
      { base with
        success := true,
        manifests := manifestMap.map (fun p => p.1 ++ "_" ++ p.2 ++ ".manifest"),
        sourceRepo := some "SteamAutoCracks V2" }

/-- Observed environment of one Buqiuren attempt: token endpoint status and
token, depot listing status and entries, and the per-manifest download
outcome. -/
structure BuqiurenEnv where
  tokenStatus : Nat
  sessionToken : Option String
  depotStatus : Nat
  depots : List (Option String × Option String)
  downloadOk : String → Bool

/-- `downloadFromBuqiuren`: acquire the session token, list depots, then
download each depot manifest individually, skipping failures; succeed
when at least one manifest was downloaded. -/
def downloadFromBuqiuren (appId : String) (env : BuqiurenEnv) : DownloadResult :=
  let base : DownloadResult :=
    { success := false, appId, depotKeys := [], manifests := [], isBranch := false,
      sourceName := some "buqiuren" }
  if env.tokenStatus ≠ 200 then { base with error := some "token failed" }
  else
    match env.sessionToken with
    | none => { base with error := some "token invalid" }
    | some _ =>
      if env.depotStatus ≠ 200 then { base with error := some "depots failed" }
      else if env.depots.isEmpty then { base with error := some "no depots" }
      else
        let manifestFiles := env.depots.filterMap (fun d =>
          match d.1, d.2 with
          | some depotId, some manifestId =>
            if env.downloadOk (depotId ++ "_" ++ manifestId) then
              some (depotId ++ "_" ++ manifestId ++ ".manifest")
            else none
          | _, _ => none)
        { base with
          success := !manifestFiles.isEmpty,
          manifests := manifestFiles,
          sourceRepo := some "Buqiuren",
          error := if manifestFiles.isEmpty then some "none downloaded" else none }

/-- The per-mirror environments and the game-name lookup of the dispatch
loop. -/
structure MultiEnv where
  zipEnv : SourceConfig → ZipSourceEnv
  sacEnv : SacV2Env
  buqEnv : BuqiurenEnv
  gameName : Option String

/-- Set the game name on a result when one is known. -/
def withGameName (gameName : Option String) (r : DownloadResult) : DownloadResult :=
  match gameName with
  | some g => { r with gameName := some g }
  | none => r

/-- Dispatch one mirror by its kind string. -/
def multiSourceAttempt (appId : String) (env : MultiEnv) (source : SourceConfig) :
    DownloadResult :=
  if source.name == "steamautocracks_v2" then downloadFromSteamAutoCracksV2 appId env.sacEnv
  else if source.name == "buqiuren" then downloadFromBuqiuren appId env.buqEnv
  else downloadFromZipSource appId source (env.zipEnv source)

/-- `downloadFromMultiSources`: try the mirrors in configured order,
skipping disabled ones, returning the first success (enriched with the
game name); the all-failed record otherwise. -/
def downloadFromMultiSources (appId : String) (sources : List SourceConfig)
    (env : MultiEnv) : DownloadResult :=
  match sources with
  | [] =>
    { success := false, appId, depotKeys := [], manifests := [], isBranch := false,
      error := some "all sources failed" }
  | s :: rest =>
    if !s.enabled then downloadFromMultiSources appId rest env
    else
      let r := multiSourceAttempt appId env s
      if r.success then withGameName env.gameName r
      else downloadFromMultiSources appId rest env

/-! ### Orchestrator (`downloadSteamDepot`, steam-depot-service.ts 507-788)

The per-repository network outcomes are abstracted as functions from the
repository configuration to the `DownloadResult` the corresponding resolver
produced; `hubAttempt = none` models a `fetchFromManifestHub` call that
threw.  Alongside the final result the model records the generated merge
script (written to disk by the source) and the ordered list of repository
names attempted. -/

/-- `/^\d+$/` on the candidate identifier. -/
def isValidAppId (s : String) : Bool := !s.isEmpty && s.toList.all Char.isDigit

/-- `Object.entries(manifests).map(...)`: the displayed manifest file
names. -/
def manifestNames (m : ManifestMap) : List String :=
  m.map (fun p => p.1 ++ "_" ++ p.2 ++ ".manifest")

/-- `keySource || "SAC"` (JS falsy: absent or empty). -/
def keySourceLabel (o : Option String) : String :=
  match o with
  | some s => if s == "" then "SAC" else s
  | none => "SAC"

/-- One fallback pass over a repository list: try each repository in order,
return the first success together with the names attempted. -/
def repoPass (outcome : RepoConfig → DownloadResult) :
    List RepoConfig → Option DownloadResult × List String
  | [] => (none, [])
  | r :: rest =>
    let res := outcome r
    if res.success then (some res, [r.name])
    else
      let t := repoPass outcome rest
      (t.1, r.name :: t.2)

/-- The merge step run on the first successful tree-style repository
result: when the saved hub result has manifests but no keys and the
repository found keys, build the merged result (manifests from the hub,
keys from the repository, regenerated script, composite label), provided
the merge zip write succeeds; otherwise fall through to the plain
repository result (game name attached when known). -/
def orchMergeStep (appId : String) (setManifestId : Bool) (mergeZipOk : Bool)
    (gameName : Option String) (hubSaved : Option HubResult)
    (repoResult : DownloadResult) : DownloadResult × Option String :=
  match hubSaved with
  | some hr =>
    if hr.depotKeys.isEmpty && !repoResult.depotKeys.isEmpty && !hr.manifests.isEmpty then
      if mergeZipOk then
        ({ success := true, appId, depotKeys := repoResult.depotKeys,
           manifests := manifestNames hr.manifests, isBranch := false,
           zipPath := some (appId ++ ".zip"),
           sourceRepo := some ("ManifestHub + " ++ repoResult.sourceRepo.getD "undefined"),
           gameName := gameName },
         some (generateManifestHubLua appId repoResult.depotKeys hr.manifests hr.dlcIds
           setManifestId))
      else (withGameName gameName repoResult, none)
    else (withGameName gameName repoResult, none)
  | none => (withGameName gameName repoResult, none)

/-- The hub-manifests-only fallback after all repositories failed: when the
saved hub result has manifests, package them (key-less when no keys) if the
zip write succeeds. -/
def orchHubOnly (appId : String) (setManifestId : Bool) (hubOnlyZipOk : Bool)
    (gameName : Option String) (hubSaved : Option HubResult) :
    Option (DownloadResult × Option String) :=
  match hubSaved with
  | some hr =>
    if !hr.manifests.isEmpty then
      if hubOnlyZipOk then
        some ({ success := true, appId, depotKeys := hr.depotKeys,
                manifests := manifestNames hr.manifests, isBranch := false,
                zipPath := some (appId ++ ".zip"),
                sourceRepo := some ("ManifestHub (" ++ keySourceLabel hr.keySource ++
                  ") [no keys]"),
                gameName := gameName },
          some (generateManifestHubLua appId hr.depotKeys hr.manifests hr.dlcIds
            setManifestId))
      else none
    else none
  | none => none

/-- The observed environment of one `downloadSteamDepot` call. -/
structure OrchEnv where
  hubEnabled : Bool
  hubSetManifestId : Bool
  hubAttempt : Option HubResult
  hubZipOk : Bool
  repos : List RepoConfig
  branchOutcome : RepoConfig → DownloadResult
  nonBranchOutcome : RepoConfig → DownloadResult
  mergeZipOk : Bool
  hubOnlyZipOk : Bool
  gameName : Option String
  multiEnabled : Bool
  multiAutoFallback : Bool
  multiSources : List SourceConfig
  multiEnv : MultiEnv
  multiZipOk : Bool

/-- The saved hub result: present only when the hub source is enabled and
the fetch did not throw. -/
def hubSavedOf (env : OrchEnv) : Option HubResult :=
  if env.hubEnabled then env.hubAttempt else none

/-- The hub short-circuit: when the hub result succeeded with at least one
key and the zip write succeeds, the orchestrator returns it directly. -/
def hubDirectOf (appId : String) (env : OrchEnv) : Option DownloadResult :=
  match hubSavedOf env with
  | some hr =>
    if hr.success && !hr.depotKeys.isEmpty && env.hubZipOk then
      some { success := true, appId, depotKeys := hr.depotKeys,
             manifests := manifestNames hr.manifests, isBranch := false,
             zipPath := some (appId ++ ".zip"),
             sourceRepo := some ("ManifestHub (" ++ keySourceLabel hr.keySource ++ ")"),
             gameName := env.gameName }
    else none
  | none => none

/-- The multi-source final fallback phase, including the all-repositories
error result used when it is disabled or fails. -/
def orchMultiPhase (appId : String) (env : OrchEnv) : DownloadResult :=
  let errorResult : DownloadResult :=
    { success := false, appId, depotKeys := [], manifests := [], isBranch := false,
      gameName := env.gameName, error := some "not found in any repo" }
  if env.multiEnabled && env.multiAutoFallback then
    let mr := downloadFromMultiSources appId env.multiSources env.multiEnv
    if mr.success && env.multiZipOk then
      withGameName env.gameName { mr with zipPath := some (appId ++ ".zip") }
    else errorResult
  else errorResult

/-- The outcome of one orchestrator run: the returned result, the merge or
hub-only script written (if any), and the repository names attempted. -/
structure OrchOutcome where
  result : DownloadResult
  mergedLua : Option String := none
  attempts : List String := []
deriving DecidableEq

/-- `downloadSteamDepot`: validate the identifier, try the hub
short-circuit, then every enabled branch-style repository, then every
enabled tree-style repository (merging with saved hub manifests on
success), then the hub-manifests-only fallback, then the multi-source
fallback. -/
def downloadSteamDepot (appId : String) (env : OrchEnv) : OrchOutcome :=
  if !isValidAppId appId then
    ⟨{ success := false, appId, depotKeys := [], manifests := [], isBranch := false,
       error := some "invalid appid" }, none, []⟩
  else
    match hubDirectOf appId env with
    | some r => ⟨r, none, []⟩
    | none =>
      let enabledRepos := env.repos.filter (fun r => r.enabled)
      if enabledRepos.isEmpty && (hubSavedOf env).isNone then
        ⟨{ success := false, appId, depotKeys := [], manifests := [], isBranch := false,
           gameName := env.gameName, error := some "no repos enabled" }, none, []⟩
      else
        let branchPass := repoPass env.branchOutcome
          (enabledRepos.filter (fun r => r.rtype == "Branch"))
        match branchPass.1 with
        | some r => ⟨r, none, branchPass.2⟩
        | none =>
          let treePass := repoPass env.nonBranchOutcome
            (enabledRepos.filter (fun r => !(r.rtype == "Branch")))
          match treePass.1 with
          | some repoResult =>
            let m := orchMergeStep appId env.hubSetManifestId env.mergeZipOk env.gameName
              (hubSavedOf env) repoResult
            ⟨m.1, m.2, branchPass.2 ++ treePass.2⟩
          | none =>
            match orchHubOnly appId env.hubSetManifestId env.hubOnlyZipOk env.gameName
                (hubSavedOf env) with
            | some rl => ⟨rl.1, rl.2, branchPass.2 ++ treePass.2⟩
            | none => ⟨orchMultiPhase appId env, none, branchPass.2 ++ treePass.2⟩

/-- The concrete hub result of the C4 witness. -/
def c4HubResult : HubResult :=
  { success := true, appId := "1", depotKeys := [], manifests := [("2", "m")] }

/-- The concrete repository result of the C4 witness. -/
def c4RepoResult : DownloadResult :=
  { success := true, appId := "1", depotKeys := [⟨"2", "k"⟩],
    manifests := ["a.manifest"], isBranch := false, sourceRepo := some "r" }

/-- The tree-style repository result of the C7 scenario. -/
def c7TreeResult : DownloadResult :=
  { success := true, appId := "730", depotKeys := [⟨"731", "k"⟩],
    manifests := ["731_111.manifest"], isBranch := false, zipPath := some "730.zip",
    sourceRepo := some "t" }

/-- The branch-style 404 result of the C7 scenario. -/
def c7Branch404 : DownloadResult :=
  { success := false, appId := "730", depotKeys := [], manifests := [], isBranch := true }

/-- The totally failed hub result of the C7 scenario. -/
def c7FailedHub : HubResult :=
  { success := false, appId := "730", depotKeys := [], manifests := [],
    error := some "fetch failed" }

/-- An inert multi-source environment for the C7 scenario. -/
def c7MultiEnv : MultiEnv :=
  { zipEnv := fun _ => { downloaded := false, extractOk := false, files := [] },
    sacEnv := { status := 0, depots := [] },
    buqEnv := { tokenStatus := 0, sessionToken := none, depotStatus := 0,
                depots := [], downloadOk := fun _ => false },
    gameName := none }

/-- The C7 scenario environment: the hub fails totally, one enabled
branch-style repository answers 404, one enabled tree-style repository
yields a valid manifest and key set. -/
def c7Env : OrchEnv :=
  { hubEnabled := true, hubSetManifestId := true, hubAttempt := some c7FailedHub,
    hubZipOk := true, repos := [⟨"b", true, "Branch"⟩, ⟨"t", true, "Decrypted"⟩],
    branchOutcome := fun _ => c7Branch404, nonBranchOutcome := fun _ => c7TreeResult,
    mergeZipOk := true, hubOnlyZipOk := true, gameName := none, multiEnabled := false,
    multiAutoFallback := false, multiSources := [], multiEnv := c7MultiEnv,
    multiZipOk := false }

theorem natXor_left_comm (a b c : Nat) : a ^^^ (b ^^^ c) = b ^^^ (a ^^^ c) := by
  rw [← Nat.xor_assoc, Nat.xor_comm a b, Nat.xor_assoc]

theorem natXor_cancel_left (a b : Nat) : a ^^^ (a ^^^ b) = b := by
  rw [← Nat.xor_assoc, Nat.xor_self, Nat.zero_xor]

theorem crcBitStep_xor (a b : Nat) :
    crcBitStep (a ^^^ b) = crcBitStep a ^^^ crcBitStep b := by
  have hp : (a ^^^ b) % 2 = (a % 2) ^^^ (b % 2) := by
    rw [← Nat.and_one_is_mod, ← Nat.and_one_is_mod, ← Nat.and_one_is_mod,
      Nat.and_xor_distrib_right]
  unfold crcBitStep
  rcases Nat.mod_two_eq_zero_or_one a with h1 | h1 <;>
    rcases Nat.mod_two_eq_zero_or_one b with h2 | h2 <;>
      simp [hp, h1, h2, Nat.xor_div_two, Nat.xor_assoc, natXor_left_comm,
        natXor_cancel_left]

theorem crcBitStep_iterate_xor (k a b : Nat) :
    crcBitStep^[k] (a ^^^ b) = crcBitStep^[k] a ^^^ crcBitStep^[k] b := by
  induction k generalizing a b with
  | zero => simp
  | succ k ih =>
    rw [Function.iterate_succ_apply, Function.iterate_succ_apply,
      Function.iterate_succ_apply, crcBitStep_xor, ih]

theorem crcBitStep_split (x : Nat) :
    crcBitStep x = crcBitStep (x % 2) ^^^ (x / 2) := by
  unfold crcBitStep
  rcases Nat.mod_two_eq_zero_or_one x with h | h <;> simp [h]

theorem crcBitStep_iterate_mod_div (k : Nat) : ∀ x : Nat,
    crcBitStep^[k] x = crcBitStep^[k] (x % 2 ^ k) ^^^ (x / 2 ^ k) := by
  induction k with
  | zero => intro x; simp [Nat.mod_one]
  | succ k ih =>
    intro x
    have h2 : (2 : Nat) ^ (k + 1) = 2 * 2 ^ k := by
      rw [Nat.pow_succ, Nat.mul_comm]
    have hmod2 : x % 2 ^ (k + 1) % 2 = x % 2 := by
      rw [h2, Nat.mod_mul_right_mod]
    have hdiv2 : x % 2 ^ (k + 1) / 2 = x / 2 % 2 ^ k := by
      rw [h2, Nat.mod_mul_right_div_self]
    have hdd : x / 2 ^ (k + 1) = x / 2 / 2 ^ k := by
      rw [h2, Nat.div_div_eq_div_mul]
    rw [Function.iterate_succ_apply, Function.iterate_succ_apply,
      crcBitStep_split x, crcBitStep_split (x % 2 ^ (k + 1)), hmod2, hdiv2, hdd,
      crcBitStep_iterate_xor, crcBitStep_iterate_xor, ih (x / 2),
      Nat.xor_assoc]

theorem div_256_as_halvings (y : Nat) : y / 256 = y / 2 / 2 / 2 / 2 / 2 / 2 / 2 / 2 := by
  omega

theorem xor_div_256 (a b : Nat) : (a ^^^ b) / 256 = a / 256 ^^^ b / 256 := by
  rw [div_256_as_halvings (a ^^^ b), div_256_as_halvings a, div_256_as_halvings b]
  simp only [Nat.xor_div_two]

theorem crc32Update_eq_bitwise (crc b : Nat) (hb : b < 256) :
    crc32Update crc b = crc32BitwiseUpdate crc b := by
  have hand : (crc ^^^ b) &&& 0xFF = (crc ^^^ b) % 2 ^ 8 := by
    have := Nat.and_pow_two_sub_one_eq_mod (crc ^^^ b) 8
    simpa using this
  have hshift : crc >>> 8 = crc / 2 ^ 8 := Nat.shiftRight_eq_div_pow crc 8
  have hdiv : (crc ^^^ b) / 256 = crc / 256 := by
    rw [xor_div_256]
    have : b / 256 = 0 := Nat.div_eq_of_lt hb
    rw [this, Nat.xor_zero]
  unfold crc32Update crc32BitwiseUpdate crcTableEntry
  rw [hand, hshift, crcBitStep_iterate_mod_div 8 (crc ^^^ b)]
  norm_num at hdiv ⊢
  rw [hdiv]

theorem crc32_foldl_eq (buf : List Nat) (h : ∀ b ∈ buf, b < 256) : ∀ init : Nat,
    buf.foldl crc32Update init = buf.foldl crc32BitwiseUpdate init := by
  induction buf with
  | nil => intro init; rfl
  | cons b rest ih =>
    intro init
    have hb : b < 256 := h b (List.mem_cons_self b rest)
    have hrest : ∀ x ∈ rest, x < 256 := fun x hx => h x (List.mem_cons_of_mem b hx)
    simp only [List.foldl_cons]
    rw [crc32Update_eq_bitwise init b hb, ih hrest]

theorem localFileHeader_length (crc csize usize nameLen : Nat) :
    (localFileHeader crc csize usize nameLen).length = 30 := by
  rfl

theorem centralFileHeader_length (crc csize usize nameLen offset : Nat) :
    (centralFileHeader crc csize usize nameLen offset).length = 46 := by
  rfl

theorem createZipStep_eq (deflate : List Nat → List Nat)
    (st : List Nat × List Nat × Nat) (f : ZipEntry) :
    createZipStep deflate st f =
      (st.1 ++ specLocalRecord deflate f,
       st.2.1 ++ specCentralRecord deflate f st.2.2,
       st.2.2 + 30 + (zipEntryName f).length + (deflate f.content).length) := by
  rw [createZipStep, specLocalRecord, specCentralRecord, localFileHeader_length,
    List.append_assoc]

theorem createZip_foldl (deflate : List Nat → List Nat) :
    ∀ (files : List ZipEntry) (b0 c0 : List Nat) (o0 : Nat),
      files.foldl (createZipStep deflate) (b0, c0, o0) =
        (b0 ++ (files.map (specLocalRecord deflate)).flatten,
         c0 ++ specCentralDirectory deflate files o0,
         o0 + (files.map (specEntrySize deflate)).sum) := by
  intro files
  induction files with
  | nil => intro b0 c0 o0; simp [specCentralDirectory]
  | cons e rest ih =>
    intro b0 c0 o0
    simp only [List.foldl_cons, List.map_cons, List.flatten_cons, List.sum_cons]
    rw [createZipStep_eq, ih]
    refine Prod.ext ?_ (Prod.ext ?_ ?_)
    · simp only [List.append_assoc]
    · simp only [specCentralDirectory, specEntrySize]
      simp [List.append_assoc, Nat.add_assoc]
    · simp only [specEntrySize]
      omega

/-! ### Claim C8: the CRC-32 implementation -/

set_option maxRecDepth 4000 in
/-- C8: `crc32` computes the standard reflected CRC-32.  Its 256-entry table
is generated from polynomial `0xEDB88320` by eight shift/xor steps per index;
with b < 256 for all input bytes the table-driven loop equals the bit-at-a-time
reference computation with initial value `0xFFFFFFFF` and final XOR
`0xFFFFFFFF`; the CRC of the empty sequence is `0`; and the well-known check
value for the ASCII bytes of the string of digits one to nine is
`0xCBF43926`.  Purity and determinism hold definitionally (`crc32` is a
function of the byte list alone). -/
theorem crc32_meets_spec (buf : List Nat) (h : ∀ b ∈ buf, b < 256) :
    crc32 buf = crc32Reference buf ∧
      (∀ i : Nat, crcTableEntry i = crcBitStep^[8] i) ∧
      crc32 [] = 0 ∧
      crc32 [49, 50, 51, 52, 53, 54, 55, 56, 57] = 0xCBF43926 := by
  refine ⟨?_, fun i => rfl, by decide, by decide⟩
  unfold crc32 crc32Reference
  rw [crc32_foldl_eq buf h]

/-- Witness for C8 at a concrete byte list. -/
theorem crc32_meets_spec_witness :
    (∀ b ∈ [49, 50, 51, 52, 53, 54, 55, 56, 57], b < 256) ∧
      (crc32 [49, 50, 51, 52, 53, 54, 55, 56, 57] =
          crc32Reference [49, 50, 51, 52, 53, 54, 55, 56, 57] ∧
        (∀ i : Nat, crcTableEntry i = crcBitStep^[8] i) ∧
        crc32 [] = 0 ∧
        crc32 [49, 50, 51, 52, 53, 54, 55, 56, 57] = 0xCBF43926) :=
  ⟨by decide, crc32_meets_spec [49, 50, 51, 52, 53, 54, 55, 56, 57] (by decide)⟩

/-! ### Claims C1 and C10: the archive byte layout -/

theorem specCentralDirectory_length (deflate : List Nat → List Nat) :
    ∀ (files : List ZipEntry) (o0 : Nat),
      (specCentralDirectory deflate files o0).length =
        (files.map (fun e => 46 + (zipEntryName e).length)).sum := by
  intro files
  induction files with
  | nil => intro o0; simp [specCentralDirectory]
  | cons e rest ih =>
    intro o0
    simp only [specCentralDirectory, List.length_append, List.map_cons, List.sum_cons,
      ih, specCentralRecord, centralFileHeader_length]

/-- C1: for every list of entries the writer emits exactly the layout of
§4.8: per entry a 30-byte local header (signature `0x04034b50`, version 20,
flags 0, method 8 = deflate, CRC-32 of the content, compressed and
uncompressed sizes, name length, zero extra length) followed by the
slash-separated name bytes and the raw-deflated content; then one 46-byte
central record per entry mirroring the local header plus the prefix-sum
offset of that entry; then one 22-byte end record with the entry count
(twice), the central-directory size and offset, and a zero comment length. -/
theorem createZipFromDir_meets_spec (deflate : List Nat → List Nat)
    (files : List ZipEntry) (h : files ≠ []) :
    createZipFromDir deflate files = createZipSpec deflate files := by
  clear h
  unfold createZipFromDir createZipSpec
  rw [createZip_foldl]
  simp [specCentralDirectory_length]

/-- Witness for C1 at a one-entry archive with the identity as compressor. -/
theorem createZipFromDir_meets_spec_witness :
    ([(⟨[97], [1, 2, 3]⟩ : ZipEntry)] ≠ ([] : List ZipEntry)) ∧
      createZipFromDir (fun l => l) [⟨[97], [1, 2, 3]⟩] =
        createZipSpec (fun l => l) [⟨[97], [1, 2, 3]⟩] :=
  ⟨by decide, createZipFromDir_meets_spec (fun l => l) [⟨[97], [1, 2, 3]⟩] (by decide)⟩

/-- C10: on an empty entry list the writer emits exactly the 22-byte
end-of-central-directory record: little-endian signature `0x06054b50`
(bytes `0x50 0x4b 0x05 0x06`), zero disk numbers, zero entry counts, zero
central-directory size and offset, zero comment length. -/
theorem createZipFromDir_empty (deflate : List Nat → List Nat) :
    createZipFromDir deflate [] =
      [0x50, 0x4b, 0x05, 0x06, 0, 0, 0, 0, 0, 0, 0,
       0, 0, 0, 0, 0, 0, 0, 0, 0, 0, 0] := by
  simp [createZipFromDir, endOfCentralDirectory, u32le, u16le]

theorem depotLoop_spec (depotKeys : List DepotKey) :
    ∀ (ids lines added : List String), ids.Nodup →
      depotLoop depotKeys ids lines added =
        (lines ++ (ids.filter (fun id => decide (id ∉ added))).map (depotUnlockLine depotKeys),
         added ++ ids.filter (fun id => decide (id ∉ added))) := by
  intro ids
  induction ids with
  | nil => intro lines added _; simp [depotLoop]
  | cons id rest ih =>
    intro lines added hnd
    have hid : id ∉ rest := (List.nodup_cons.mp hnd).1
    have hrest : rest.Nodup := (List.nodup_cons.mp hnd).2
    by_cases hmem : id ∈ added
    · have hdec : decide (id ∉ added) = false := by simp [hmem]
      simp only [depotLoop, if_pos hmem, List.filter_cons, hdec, Bool.false_eq_true,
        if_false, ih _ _ hrest]
    · have hdec : decide (id ∉ added) = true := by simp [hmem]
      have hfilter : rest.filter (fun x => decide (x ∉ added ++ [id])) =
          rest.filter (fun x => decide (x ∉ added)) := by
        apply List.filter_congr
        intro x hx
        have hne : x ≠ id := fun he => hid (he ▸ hx)
        simp [List.mem_append, hne]
      simp only [depotLoop, if_neg hmem, ih _ _ hrest, hfilter, List.filter_cons, hdec,
        if_true, List.map_cons, List.append_assoc, List.singleton_append, List.cons_append,
        List.nil_append]

theorem dedupFirst_cons (a : String) (rest : List String) :
    dedupFirst (a :: rest) = a :: dedupFirst (rest.filter (fun b => decide (b ≠ a))) := by
  rw [dedupFirst]

theorem dlcLoop_spec :
    ∀ (ds lines added : List String),
      dlcLoop ds lines added =
        (lines ++ (dedupFirst (ds.filter (fun i => decide (i ∉ added)))).map addappidLine,
         added ++ dedupFirst (ds.filter (fun i => decide (i ∉ added)))) := by
  intro ds
  induction ds with
  | nil => intro lines added; simp [dlcLoop, dedupFirst]
  | cons d rest ih =>
    intro lines added
    by_cases hmem : d ∈ added
    · have hdec : decide (d ∉ added) = false := by simp [hmem]
      simp only [dlcLoop, if_pos hmem, List.filter_cons, hdec, Bool.false_eq_true,
        if_false, ih]
    · have hdec : decide (d ∉ added) = true := by simp [hmem]
      have hfilter : rest.filter (fun x => decide (x ∉ added ++ [d])) =
          (rest.filter (fun x => decide (x ∉ added))).filter (fun x => decide (x ≠ d)) := by
        rw [List.filter_filter]
        apply List.filter_congr
        intro x _
        simp [List.mem_append, and_comm]
      simp only [dlcLoop, if_neg hmem, ih, hfilter, List.filter_cons, hdec, if_true,
        dedupFirst_cons, List.map_cons, List.append_assoc, List.singleton_append,
        List.cons_append, List.nil_append]

theorem mem_dedupFirst (x : String) : ∀ l : List String, x ∈ dedupFirst l ↔ x ∈ l := by
  intro l
  induction l using dedupFirst.induct with
  | case1 => simp [dedupFirst]
  | case2 a rest ih =>
    rw [dedupFirst_cons]
    by_cases hxa : x = a
    · subst hxa; simp
    · simp only [List.mem_cons, hxa, false_or]
      rw [ih]
      simp [List.mem_filter, hxa]

theorem dedupFirst_nodup : ∀ l : List String, (dedupFirst l).Nodup := by
  intro l
  induction l using dedupFirst.induct with
  | case1 => simp [dedupFirst]
  | case2 a rest ih =>
    rw [dedupFirst_cons]
    refine List.nodup_cons.mpr ⟨?_, ih⟩
    intro hmem
    have := (mem_dedupFirst a _).mp hmem
    simp [List.mem_filter] at this

theorem render_unlock_keyFor (depotKeys : List DepotKey) (id : String) :
    renderLuaCmd (LuaCmd.unlock id (keyFor depotKeys id)) = depotUnlockLine depotKeys id := by
  unfold keyFor depotUnlockLine
  cases h : findKey depotKeys id <;> simp [renderLuaCmd]

theorem pinLines_eq_spec (manifests : ManifestMap)
    (hvals : ∀ p ∈ manifests, p.2 ≠ "") :
    pinLines manifests (sortDepotIds manifests) =
      ((sortDepotIds manifests).filterMap
        (fun d => (mLookup manifests d).map (fun mid => LuaCmd.pin d mid))).map renderLuaCmd := by
  rw [List.map_filterMap]
  unfold pinLines
  apply List.filterMap_congr
  intro d hd
  have hd' : d ∈ manifests.map Prod.fst := by
    have := List.mem_mergeSort.mp hd
    exact this
  obtain ⟨p, hp, hpd⟩ := List.mem_map.mp hd'
  have hsome : (manifests.find? (fun q => q.1 == d)).isSome :=
    List.find?_isSome.mpr ⟨p, hp, by simp [hpd]⟩
  obtain ⟨q, hq⟩ := Option.isSome_iff_exists.mp hsome
  have hqm : q ∈ manifests := List.mem_of_find?_eq_some hq
  have hq2 : q.2 ≠ "" := hvals q hqm
  simp [mLookup, hq, hq2, renderLuaCmd]

theorem map_unlock_render (depotKeys : List DepotKey) (l : List String) :
    l.map (renderLuaCmd ∘ fun d => LuaCmd.unlock d (keyFor depotKeys d)) =
      l.map (depotUnlockLine depotKeys) :=
  List.map_congr_left (fun d _ => render_unlock_keyFor depotKeys d)

theorem map_unlock_none_render (l : List String) :
    l.map (renderLuaCmd ∘ fun i => LuaCmd.unlock i none) = l.map addappidLine :=
  List.map_congr_left (fun i _ => rfl)

theorem generateManifestHubLuaLines_eq_spec (appId : String) (depotKeys : List DepotKey)
    (manifests : ManifestMap) (dlcIds : Option (List String)) (setManifestId : Bool)
    (hnd : (manifests.map Prod.fst).Nodup)
    (hvals : ∀ p ∈ manifests, p.2 ≠ "") :
    generateManifestHubLuaLines appId depotKeys manifests dlcIds setManifestId =
      (luaSpecCmds appId depotKeys manifests dlcIds setManifestId).map renderLuaCmd := by
  have hsn : (sortDepotIds manifests).Nodup := (List.mergeSort_perm _ _).nodup_iff.mpr hnd
  have hf1 : (sortDepotIds manifests).filter (fun id => decide (id ∉ ([appId] : List String))) =
      (sortDepotIds manifests).filter (fun d => decide (d ≠ appId)) := by
    apply List.filter_congr
    intro x _
    simp
  have hdl := depotLoop_spec depotKeys (sortDepotIds manifests)
    [depotUnlockLine depotKeys appId] [appId] hsn
  rw [hf1] at hdl
  have hpin := pinLines_eq_spec manifests hvals
  cases dlcIds with
  | none =>
    simp only [generateManifestHubLuaLines, luaSpecCmds, hdl, Option.getD_none,
      List.filter_nil, dedupFirst, List.map_nil, List.append_nil]
    cases setManifestId with
    | false =>
      simp only [Bool.false_eq_true, if_false, List.map_cons, List.map_append,
        render_unlock_keyFor, List.map_map, map_unlock_render, List.singleton_append,
        List.cons_append, List.nil_append, List.append_nil]
    | true =>
      simp only [if_true, hpin, List.map_cons, List.map_append, render_unlock_keyFor,
        List.map_map, map_unlock_render, List.singleton_append, List.cons_append,
        List.nil_append, List.append_assoc]
  | some ds =>
    have hf2 : ds.filter (fun i =>
        decide (i ∉ appId :: (sortDepotIds manifests).filter (fun d => decide (d ≠ appId)))) =
        ds.filter (fun i => decide (i ≠ appId ∧ i ∉ sortDepotIds manifests)) := by
      apply List.filter_congr
      intro x _
      by_cases hx : x = appId
      · simp [hx]
      · simp [hx, List.mem_filter]
    have hdlc := dlcLoop_spec ds
      ([depotUnlockLine depotKeys appId] ++
        ((sortDepotIds manifests).filter (fun d => decide (d ≠ appId))).map
          (depotUnlockLine depotKeys))
      ([appId] ++ (sortDepotIds manifests).filter (fun d => decide (d ≠ appId)))
    simp only [List.singleton_append] at hdlc hdl ⊢
    rw [hf2] at hdlc
    simp only [generateManifestHubLuaLines, luaSpecCmds, hdl, hdlc, Option.getD_some]
    cases setManifestId with
    | false =>
      simp only [Bool.false_eq_true, if_false, List.map_cons, List.map_append,
        render_unlock_keyFor, List.map_map, map_unlock_render, map_unlock_none_render,
        List.append_nil, List.cons_append, List.nil_append, List.append_assoc]
    | true =>
      simp only [if_true, hpin, List.map_cons, List.map_append, render_unlock_keyFor,
        List.map_map, map_unlock_render, map_unlock_none_render, List.cons_append,
        List.nil_append, List.append_assoc]

theorem unlockIds_extract_pins (manifests : ManifestMap) (sorted : List String) :
    (sorted.filterMap
        (fun d => (mLookup manifests d).map (fun mid => LuaCmd.pin d mid))).filterMap
      (fun c =>
        match c with
        | LuaCmd.unlock id _ => some id
        | LuaCmd.pin _ _ => none) = [] := by
  apply List.filterMap_eq_nil_iff.mpr
  intro c hc
  obtain ⟨d, _, hd⟩ := List.mem_filterMap.mp hc
  obtain ⟨mid, _, rfl⟩ := Option.map_eq_some'.mp hd
  rfl

theorem extract_unlock_comp (f : String → Option String) :
    ((fun c =>
        match c with
        | LuaCmd.unlock id _ => some id
        | LuaCmd.pin _ _ => none) ∘ fun d => LuaCmd.unlock d (f d)) = fun d => some d := rfl

theorem extract_unlock_none_comp :
    ((fun c =>
        match c with
        | LuaCmd.unlock id _ => some id
        | LuaCmd.pin _ _ => none) ∘ fun i => LuaCmd.unlock i none) =
      fun i => some (α := String) i := rfl

theorem filterMap_someFn (l : List String) : l.filterMap (fun d => some d) = l :=
  List.filterMap_some l

theorem unlockIdsOf_spec (appId : String) (depotKeys : List DepotKey)
    (manifests : ManifestMap) (dlcIds : Option (List String)) (setManifestId : Bool) :
    unlockIdsOf (luaSpecCmds appId depotKeys manifests dlcIds setManifestId) =
      appId :: ((sortDepotIds manifests).filter (fun d => decide (d ≠ appId)) ++
        dedupFirst ((dlcIds.getD []).filter
          (fun i => decide (i ≠ appId ∧ i ∉ sortDepotIds manifests)))) := by
  unfold unlockIdsOf luaSpecCmds
  cases setManifestId with
  | false =>
    simp [List.filterMap_cons, List.filterMap_append, List.filterMap_map,
      extract_unlock_comp, extract_unlock_none_comp, filterMap_someFn]
  | true =>
    simp [List.filterMap_cons, List.filterMap_append, List.filterMap_map,
      extract_unlock_comp, extract_unlock_none_comp, filterMap_someFn,
      unlockIds_extract_pins]

theorem unlockIds_nodup (appId : String) (depotKeys : List DepotKey)
    (manifests : ManifestMap) (dlcIds : Option (List String)) (setManifestId : Bool)
    (hnd : (manifests.map Prod.fst).Nodup) :
    (unlockIdsOf (luaSpecCmds appId depotKeys manifests dlcIds setManifestId)).Nodup := by
  rw [unlockIdsOf_spec]
  have hsn : (sortDepotIds manifests).Nodup := (List.mergeSort_perm _ _).nodup_iff.mpr hnd
  refine List.nodup_cons.mpr ⟨?_, List.Nodup.append (hsn.filter _) (dedupFirst_nodup _) ?_⟩
  · intro hmem
    rcases List.mem_append.mp hmem with hx | hx
    · have := (List.mem_filter.mp hx).2
      simp at this
    · have := (List.mem_filter.mp ((mem_dedupFirst _ _).mp hx)).2
      simp at this
  · intro x hx hx'
    have h1 : x ∈ sortDepotIds manifests := (List.mem_filter.mp hx).1
    have h2 := (List.mem_filter.mp ((mem_dedupFirst _ _).mp hx')).2
    simp only [decide_eq_true_eq] at h2
    exact h2.2 h1

theorem sortDepotIds_sorted (manifests : ManifestMap) :
    (sortDepotIds manifests).Pairwise (fun a b => parseIntNat a ≤ parseIntNat b) := by
  unfold sortDepotIds
  refine List.Pairwise.imp ?_
    (List.sorted_mergeSort ?_ ?_ (manifests.map Prod.fst))
  · intro a b hab
    simpa using hab
  · intro a b c h1 h2
    simp only [decide_eq_true_eq] at h1 h2 ⊢
    omega
  · intro a b
    simp only [Bool.or_eq_true, decide_eq_true_eq]
    omega

/-! ### Claim C3: the generated unlock script -/

/-- C3: for any input whose manifest map is a well-formed JS object
(distinct keys, non-empty manifest ids — the only shape the callers
produce), the generated script is exactly: one unlock directive for the
primary id (keyed when the key list knows it), then one per manifest-map
depot id in ascending numeric order skipping the primary id, then one
key-less directive per not-yet-emitted DLC id, then (only when the flag is
set) one pinning directive per manifest-map depot id in the same order;
every identifier gets at most one unlock directive; output is byte-identical
across calls since the generator is a pure function of its arguments. -/
theorem generateManifestHubLua_meets_spec (appId : String) (depotKeys : List DepotKey)
    (manifests : ManifestMap) (dlcIds : Option (List String)) (setManifestId : Bool)
    (hnd : (manifests.map Prod.fst).Nodup)
    (hvals : ∀ p ∈ manifests, p.2 ≠ "") :
    generateManifestHubLua appId depotKeys manifests dlcIds setManifestId =
        String.intercalate "\n"
          ((luaSpecCmds appId depotKeys manifests dlcIds setManifestId).map renderLuaCmd) ∧
      (unlockIdsOf (luaSpecCmds appId depotKeys manifests dlcIds setManifestId)).Nodup ∧
      (sortDepotIds manifests).Pairwise (fun a b => parseIntNat a ≤ parseIntNat b) :=
  ⟨congrArg (String.intercalate "\n")
      (generateManifestHubLuaLines_eq_spec appId depotKeys manifests dlcIds setManifestId
        hnd hvals),
    unlockIds_nodup appId depotKeys manifests dlcIds setManifestId hnd,
    sortDepotIds_sorted manifests⟩

/-- Witness for C3 at a concrete input exercising keys, sorting, DLC
deduplication and pinning. -/
theorem generateManifestHubLua_meets_spec_witness :
    ((([("2", "m2"), ("10", "m10"), ("3", "m3")] : ManifestMap).map Prod.fst).Nodup ∧
      (∀ p ∈ ([("2", "m2"), ("10", "m10"), ("3", "m3")] : ManifestMap), p.2 ≠ "")) ∧
      (generateManifestHubLua "10" [⟨"10", "aa"⟩, ⟨"2", "bb"⟩]
          [("2", "m2"), ("10", "m10"), ("3", "m3")] (some ["5", "2", "5"]) true =
          String.intercalate "\n"
            ((luaSpecCmds "10" [⟨"10", "aa"⟩, ⟨"2", "bb"⟩]
              [("2", "m2"), ("10", "m10"), ("3", "m3")] (some ["5", "2", "5"]) true).map
                renderLuaCmd) ∧
        (unlockIdsOf (luaSpecCmds "10" [⟨"10", "aa"⟩, ⟨"2", "bb"⟩]
          [("2", "m2"), ("10", "m10"), ("3", "m3")] (some ["5", "2", "5"]) true)).Nodup ∧
        (sortDepotIds [("2", "m2"), ("10", "m10"), ("3", "m3")]).Pairwise
          (fun a b => parseIntNat a ≤ parseIntNat b)) :=
  ⟨⟨by decide, by decide⟩,
    generateManifestHubLua_meets_spec "10" [⟨"10", "aa"⟩, ⟨"2", "bb"⟩]
      [("2", "m2"), ("10", "m10"), ("3", "m3")] (some ["5", "2", "5"]) true
      (by decide) (by decide)⟩

/-! ### Claim C9: duplicate depot keys -/

set_option maxRecDepth 8000 in
/-- C9 counterexample: a key-bearing configuration file holding two
DecryptionKey lines for the same depot id yields a result key list with two
entries for that id — depot keys are not unique per depotId, refuting the
claimed invariant — and the script generator invoked with two entries for
the same id emits the EARLIER key (aa), not the later one (bb), so the later
entry does not overwrite the earlier one in the generated script either. -/
theorem depotKeys_not_unique_counterexample :
    (parseVdfForDepotKeys
        "\"depots\"\n\"111\"\n\"DecryptionKey\" \"aa\"\n\"DecryptionKey\" \"bb\"" =
        [⟨"111", "aa"⟩, ⟨"111", "bb"⟩] ∧
      ¬ ((parseVdfForDepotKeys
          "\"depots\"\n\"111\"\n\"DecryptionKey\" \"aa\"\n\"DecryptionKey\" \"bb\"").map
            DepotKey.depotId).Nodup) ∧
      generateManifestHubLuaLines "1" [⟨"1", "aa"⟩, ⟨"1", "bb"⟩] [] none false =
        ["addappid(1, 1, \"aa\")"] := by
  refine ⟨⟨by decide, by decide⟩, ?_⟩
  simp [generateManifestHubLuaLines, sortDepotIds, depotLoop, depotUnlockLine, findKey,
    addappidKeyLine]

theorem depotLoop_lines_extend (depotKeys : List DepotKey) :
    ∀ (ids lines added : List String), ∃ ext,
      (depotLoop depotKeys ids lines added).1 = lines ++ ext := by
  intro ids
  induction ids with
  | nil => intro lines added; exact ⟨[], by simp [depotLoop]⟩
  | cons id rest ih =>
    intro lines added
    by_cases hmem : id ∈ added
    · obtain ⟨ext, hext⟩ := ih lines added
      exact ⟨ext, by simp [depotLoop, hmem, hext]⟩
    · obtain ⟨ext, hext⟩ := ih (lines ++ [depotUnlockLine depotKeys id]) (added ++ [id])
      refine ⟨[depotUnlockLine depotKeys id] ++ ext, ?_⟩
      simp only [depotLoop, if_neg hmem, hext, List.append_assoc]

/-- C9 amended: the parsers append every parsed key without deduplication
(see the counterexample for the retained duplicates), and within the
generated script the FIRST key entry carrying a given id wins: whenever the
head of the key list already carries the primary id, the first emitted
directive uses that entry, regardless of any later entries for the same id. -/
theorem depotKeys_first_entry_wins (appId : String) (k1 : DepotKey)
    (rest : List DepotKey) (manifests : ManifestMap) (dlcIds : Option (List String))
    (setManifestId : Bool) (h : k1.depotId = appId) :
    (generateManifestHubLuaLines appId (k1 :: rest) manifests dlcIds setManifestId).head? =
      some (addappidKeyLine appId k1.decryptionKey) := by
  have hfirst : depotUnlockLine (k1 :: rest) appId = addappidKeyLine appId k1.decryptionKey := by
    unfold depotUnlockLine findKey
    rw [List.find?_cons_of_pos _ (by simp [h])]
  obtain ⟨ext1, hext1⟩ := depotLoop_lines_extend (k1 :: rest)
    (sortDepotIds manifests) [depotUnlockLine (k1 :: rest) appId] [appId]
  cases dlcIds with
  | none =>
    cases setManifestId <;>
      · simp only [generateManifestHubLuaLines, dlcLoop_spec, Bool.false_eq_true,
          if_false, if_true]
        rw [hext1]
        simp [hfirst]
  | some ds =>
    cases setManifestId <;>
      · simp only [generateManifestHubLuaLines, dlcLoop_spec, Bool.false_eq_true,
          if_false, if_true]
        rw [hext1]
        simp [hfirst]

/-- Witness for the amended C9 theorem at a concrete duplicated key list. -/
theorem depotKeys_first_entry_wins_witness :
    (DepotKey.depotId ⟨"1", "aa"⟩ = "1") ∧
      (generateManifestHubLuaLines "1" [⟨"1", "aa"⟩, ⟨"1", "bb"⟩] [] none false).head? =
        some (addappidKeyLine "1" (DepotKey.decryptionKey ⟨"1", "aa"⟩)) :=
  ⟨by decide, depotKeys_first_entry_wins "1" ⟨"1", "aa"⟩ [⟨"1", "bb"⟩] [] none false (by decide)⟩

/-! ### Claim C5: cache TTL behaviour -/

/-- C5 counterexample: a file-tier entry whose age is exactly the TTL
(mtime 0, query at 3600000 ms = 0 + 1 h · 3600000 ms/h with TTL 1 h) is
returned as a hit, while the claim requires a miss at or after T + TTL. -/
theorem cacheTTL_boundary_counterexample :
    loadDepotKeysFromCache ⟨true, 1, 0, 3600000, [("1", "k")]⟩ = some [("1", "k")] ∧
      (3600000 : ℚ) = 0 + 1 * 3600000 := by
  constructor
  · simp only [loadDepotKeysFromCache]
    norm_num
  · norm_num

/-- C5 amended: the memory tier hits exactly for queries strictly before
T + TTL hours and misses at or after; the file tier hits for queries up to
and INCLUDING T + TTL hours (its staleness test is strict) and misses
strictly after; a TTL of zero misses both tiers (for queries not before the
entry time). -/
theorem cacheTTL_meets_amended_spec :
    (∀ (env : MemCacheEnv) (t : List (String × String)),
      env.forceRefresh = false → env.memCache = some t →
      (getDepotKeysMemoryTier env = some t ↔
        env.nowMs < env.memCacheTimeMs + env.cacheExpireHours * 3600000)) ∧
    (∀ env : FileCacheEnv,
      env.fileExists = true → 0 < env.cacheExpireHours → env.fileData ≠ [] →
      (loadDepotKeysFromCache env = some env.fileData ↔
        env.nowMs ≤ env.mtimeMs + env.cacheExpireHours * 3600000)) ∧
    (∀ env : MemCacheEnv, env.cacheExpireHours = 0 → env.memCacheTimeMs ≤ env.nowMs →
      getDepotKeysMemoryTier env = none) ∧
    (∀ env : FileCacheEnv, env.cacheExpireHours = 0 → loadDepotKeysFromCache env = none) := by
  have h36 : (0 : ℚ) < 3600000 := by norm_num
  refine ⟨?_, ?_, ?_, ?_⟩
  · intro env t hf hm
    simp only [getDepotKeysMemoryTier, hf, hm, Bool.not_false, if_true]
    by_cases hlt : (env.nowMs - env.memCacheTimeMs) / 3600000 < env.cacheExpireHours
    · have := (div_lt_iff₀ h36).mp hlt
      simp only [if_pos hlt]
      constructor
      · intro _; linarith
      · intro _; trivial
    · have := (div_lt_iff₀ h36).not.mp hlt
      simp only [if_neg hlt]
      constructor
      · intro hcontra; cases hcontra
      · intro hnow
        exfalso
        apply hlt
        rw [div_lt_iff₀ h36]
        linarith
  · intro env he hpos hne
    simp only [loadDepotKeysFromCache, he, Bool.not_true, Bool.false_eq_true, if_false,
      if_neg (not_le.mpr hpos)]
    have hempty : env.fileData.isEmpty = false := by
      cases hdata : env.fileData with
      | nil => exact absurd hdata hne
      | cons a l => simp
    by_cases hgt : (env.nowMs - env.mtimeMs) / 3600000 > env.cacheExpireHours
    · have := (lt_div_iff₀ h36).mp hgt
      simp only [if_pos hgt]
      constructor
      · intro hcontra; cases hcontra
      · intro hle; exfalso; linarith
    · have hle : (env.nowMs - env.mtimeMs) / 3600000 ≤ env.cacheExpireHours := not_lt.mp hgt
      have := (div_le_iff₀ h36).mp hle
      simp only [if_neg hgt, hempty, Bool.false_eq_true, if_false]
      constructor
      · intro _; linarith
      · intro _; trivial
  · intro env h0 hord
    simp only [getDepotKeysMemoryTier, h0]
    cases hf : env.forceRefresh with
    | true => simp
    | false =>
      simp only [Bool.not_false, if_true]
      cases hm : env.memCache with
      | none => rfl
      | some t =>
        have : ¬ ((env.nowMs - env.memCacheTimeMs) / 3600000 < 0) := by
          apply not_lt.mpr
          apply div_nonneg (by linarith) (le_of_lt h36)
        simp [this]
  · intro env h0
    simp only [loadDepotKeysFromCache, h0]
    cases hf : env.fileExists with
    | false => simp
    | true => simp

/-- Witness for the amended C5 theorem: a memory-tier query half an hour
after caching with a one-hour TTL. -/
theorem cacheTTL_meets_amended_spec_witness :
    getDepotKeysMemoryTier ⟨false, some [("1", "k")], 0, 1, 1800000⟩ = some [("1", "k")] ↔
      (1800000 : ℚ) < 0 + 1 * 3600000 :=
  cacheTTL_meets_amended_spec.1 ⟨false, some [("1", "k")], 0, 1, 1800000⟩ [("1", "k")] rfl rfl

/-! ### Claim C6: the single forced refresh -/

/-- C6: when the key-table and manifest fetches both succeed, the resolver
performs exactly one manifest lookup and at most one DLC lookup in every
case; exactly one forced refresh happens iff some relevant id (the app id
or a manifest-map depot id) lacks a truthy key in the bulk table, and none
otherwise; and after a successful refresh the result keys are the first
extraction pass plus keys extracted from the refreshed table for the
previously missing ids only. -/
theorem fetchFromManifestHub_refresh_policy (appId : String) (env : HubEnv)
    (table : List (String × String)) (manifests : ManifestMap)
    (hen : env.enabled = true) (hk : env.keysResp = some table)
    (hm : env.manifestsResp = some manifests) :
    ((fetchFromManifestHub appId env).2.manifestFetches = 1 ∧
      (fetchFromManifestHub appId env).2.dlcFetches ≤ 1) ∧
    (hubMissingIds appId manifests table ≠ [] →
      (fetchFromManifestHub appId env).2.refreshCalls = 1) ∧
    (hubMissingIds appId manifests table = [] →
      (fetchFromManifestHub appId env).2.refreshCalls = 0) ∧
    (∀ rt, env.refreshedResp = some rt →
      (fetchFromManifestHub appId env).1.depotKeys =
        hubFirstPassKeys appId manifests table ++
          (hubMissingIds appId manifests table).filterMap (fun id =>
            match tableLookup rt id with
            | some k => if k == "" then none else some (⟨id, k⟩ : DepotKey)
            | none => none)) ∧
    (∀ k ∈ (fetchFromManifestHub appId env).1.depotKeys,
      k ∈ hubFirstPassKeys appId manifests table ∨
        k.depotId ∈ hubMissingIds appId manifests table) := by
  simp only [fetchFromManifestHub, hen, hk, hm, Bool.not_true, Bool.false_eq_true, if_false]
  refine ⟨⟨?_, ?_⟩, ?_, ?_, ?_, ?_⟩
  · trivial
  · cases env.includeDLC <;> simp
  · intro hne
    have : (hubMissingIds appId manifests table).isEmpty = false := by
      cases h : hubMissingIds appId manifests table with
      | nil => exact absurd h hne
      | cons a l => simp
    simp [this]
  · intro hnil
    simp [hnil]
  · intro rt hrt
    by_cases hmiss : (hubMissingIds appId manifests table).isEmpty
    · have hnil : hubMissingIds appId manifests table = [] := List.isEmpty_iff.mp hmiss
      simp [hmiss, hnil]
    · simp [hmiss, hrt]
  · intro k hk2
    by_cases hmiss : (hubMissingIds appId manifests table).isEmpty
    · left
      simpa [hmiss] using hk2
    · cases hrt : env.refreshedResp with
      | none =>
        left
        simpa [hmiss, hrt] using hk2
      | some rt =>
        simp only [hmiss, hrt, Bool.false_eq_true, if_false] at hk2
        rcases List.mem_append.mp hk2 with hmem | hmem
        · exact Or.inl hmem
        · right
          obtain ⟨id, hid, hsome⟩ := List.mem_filterMap.mp hmem
          rcases htl : tableLookup rt id with _ | key
          · simp [htl] at hsome
          · simp only [htl] at hsome
            split at hsome
            · cases hsome
            · cases hsome
              exact hid

/-- Witness for C6: one required id (the app id) missing from the table,
found after the forced refresh. -/
theorem fetchFromManifestHub_refresh_policy_witness :
    (({ enabled := true, includeDLC := false, depotKeySource := "SAC",
        keysResp := some [("2", "k2")], manifestsResp := some [("2", "m2")],
        refreshedResp := some [("1", "k1"), ("2", "k2")], dlcResp := [] } : HubEnv).enabled
          = true) ∧
      (fetchFromManifestHub "1"
          { enabled := true, includeDLC := false, depotKeySource := "SAC",
            keysResp := some [("2", "k2")], manifestsResp := some [("2", "m2")],
            refreshedResp := some [("1", "k1"), ("2", "k2")], dlcResp := [] }).2.manifestFetches
        = 1 ∧
      (hubMissingIds "1" [("2", "m2")] [("2", "k2")] ≠ [] →
        (fetchFromManifestHub "1"
            { enabled := true, includeDLC := false, depotKeySource := "SAC",
              keysResp := some [("2", "k2")], manifestsResp := some [("2", "m2")],
              refreshedResp := some [("1", "k1"), ("2", "k2")], dlcResp := [] }).2.refreshCalls
          = 1) := by
  have h := fetchFromManifestHub_refresh_policy "1"
    { enabled := true, includeDLC := false, depotKeySource := "SAC",
      keysResp := some [("2", "k2")], manifestsResp := some [("2", "m2")],
      refreshedResp := some [("1", "k1"), ("2", "k2")], dlcResp := [] }
    [("2", "k2")] [("2", "m2")] rfl rfl rfl
  exact ⟨rfl, h.1.1, h.2.1⟩

/-! ### Claim C2: the success invariant -/

/-- C2 counterexample: a branch-style repository download that hits a 200
returns a result with the success flag set whose depotKeys and manifests
are BOTH empty (the payload is carried only by the stored zip path), so the
claimed invariant fails for the branch-style resolver. -/
theorem resolver_success_invariant_counterexample :
    (downloadFromBranchRepo ⟨"owner/repo", true, "Branch"⟩ "730" 200).success = true ∧
      ¬ ((downloadFromBranchRepo ⟨"owner/repo", true, "Branch"⟩ "730" 200).depotKeys ≠ [] ∨
        (downloadFromBranchRepo ⟨"owner/repo", true, "Branch"⟩ "730" 200).manifests ≠ []) := by
  constructor
  · rfl
  · intro hc
    rcases hc with hc | hc <;> exact hc rfl

theorem downloadFromNonBranchRepo_success (repo : RepoConfig) (appId : String)
    (env : NonBranchEnv) (h : (downloadFromNonBranchRepo repo appId env).success = true) :
    (downloadFromNonBranchRepo repo appId env).manifests ≠ [] := by
  by_cases h1 : env.branchStatus ≠ 200
  · simp [downloadFromNonBranchRepo, h1] at h
  · cases hsha : env.commitSha with
    | none => simp [downloadFromNonBranchRepo, h1, hsha] at h
    | some sha =>
      by_cases h2 : env.treeStatus ≠ 200
      · simp [downloadFromNonBranchRepo, h1, hsha, h2] at h
      · by_cases h3 : (!(nonBranchManifests env).isEmpty && env.zipOk) = true
        · simp only [downloadFromNonBranchRepo, h1, hsha, h2, h3]
          simp only [if_false, if_true, ite_false, ite_true]
          have hne := (Bool.and_eq_true _ _).mp h3 |>.1
          intro hnil
          simp only [hnil, List.isEmpty_nil, Bool.not_true] at hne
          cases hne
        · simp [downloadFromNonBranchRepo, h1, hsha, h2, h3] at h

theorem fetchFromManifestHub_success (appId : String) (env : HubEnv)
    (h : (fetchFromManifestHub appId env).1.success = true) :
    (fetchFromManifestHub appId env).1.depotKeys ≠ [] ∨
      (fetchFromManifestHub appId env).1.manifests ≠ [] := by
  cases henb : env.enabled with
  | false => simp [fetchFromManifestHub, henb] at h
  | true =>
    cases hk : env.keysResp with
    | none => simp [fetchFromManifestHub, henb, hk] at h
    | some table =>
      cases hm : env.manifestsResp with
      | none => simp [fetchFromManifestHub, henb, hk, hm] at h
      | some manifests =>
        simp only [fetchFromManifestHub, henb, hk, hm, Bool.not_true, Bool.false_eq_true,
          if_false] at h ⊢
        simp only [Bool.or_eq_true, Bool.not_eq_true', List.isEmpty_eq_false] at h
        tauto

theorem downloadFromZipSource_success (appId : String) (source : SourceConfig)
    (env : ZipSourceEnv)
    (h : (downloadFromZipSource appId source env).success = true) :
    (downloadFromZipSource appId source env).depotKeys ≠ [] ∨
      (downloadFromZipSource appId source env).manifests ≠ [] := by
  cases hd : env.downloaded with
  | false => simp [downloadFromZipSource, hd] at h
  | true =>
    cases hx : env.extractOk with
    | false => simp [downloadFromZipSource, hd, hx] at h
    | true =>
      simp only [downloadFromZipSource, hd, hx, Bool.not_true, Bool.false_eq_true,
        if_false] at h ⊢
      simp only [Bool.or_eq_true, Bool.not_eq_true', List.isEmpty_eq_false] at h
      tauto

theorem downloadFromSteamAutoCracksV2_success (appId : String) (env : SacV2Env)
    (h : (downloadFromSteamAutoCracksV2 appId env).success = true) :
    (downloadFromSteamAutoCracksV2 appId env).manifests ≠ [] := by
  by_cases h1 : env.status ≠ 200
  · simp [downloadFromSteamAutoCracksV2, h1] at h
  · by_cases h2 : env.depots.isEmpty = true
    · simp [downloadFromSteamAutoCracksV2, h1, h2] at h
    · by_cases h3 : (env.depots.filterMap (fun p => p.2.map (fun m => (p.1, m)))).isEmpty = true
      · simp [downloadFromSteamAutoCracksV2, h1, h2, h3] at h
      · simp only [downloadFromSteamAutoCracksV2, h1, h2, h3, Bool.false_eq_true, if_false,
          ite_false, ite_true]
        intro hnil
        have hmapnil := List.map_eq_nil_iff.mp hnil
        apply h3
        rw [hmapnil]
        rfl

theorem downloadFromBuqiuren_success (appId : String) (env : BuqiurenEnv)
    (h : (downloadFromBuqiuren appId env).success = true) :
    (downloadFromBuqiuren appId env).manifests ≠ [] := by
  by_cases h1 : env.tokenStatus ≠ 200
  · simp [downloadFromBuqiuren, h1] at h
  · cases ht : env.sessionToken with
    | none => simp [downloadFromBuqiuren, h1, ht] at h
    | some tok =>
      by_cases h2 : env.depotStatus ≠ 200
      · simp [downloadFromBuqiuren, h1, ht, h2] at h
      · by_cases h3 : env.depots.isEmpty = true
        · simp [downloadFromBuqiuren, h1, ht, h2, h3] at h
        · simp only [downloadFromBuqiuren, h1, ht, h2, h3, Bool.false_eq_true, if_false,
            ite_false, ite_true] at h ⊢
          simp only [Bool.not_eq_true', List.isEmpty_eq_false] at h
          exact h

theorem withGameName_fields (g : Option String) (r : DownloadResult) :
    (withGameName g r).depotKeys = r.depotKeys ∧ (withGameName g r).manifests = r.manifests := by
  cases g <;> simp [withGameName]

theorem multiSourceAttempt_success (appId : String) (env : MultiEnv) (source : SourceConfig)
    (h : (multiSourceAttempt appId env source).success = true) :
    (multiSourceAttempt appId env source).depotKeys ≠ [] ∨
      (multiSourceAttempt appId env source).manifests ≠ [] := by
  by_cases h1 : (source.name == "steamautocracks_v2") = true
  · simp only [multiSourceAttempt, h1, if_true] at h ⊢
    exact Or.inr (downloadFromSteamAutoCracksV2_success appId env.sacEnv h)
  · by_cases h2 : (source.name == "buqiuren") = true
    · simp only [multiSourceAttempt, h1, h2, Bool.false_eq_true, if_false, if_true] at h ⊢
      exact Or.inr (downloadFromBuqiuren_success appId env.buqEnv h)
    · simp only [multiSourceAttempt, h1, h2, Bool.false_eq_true, if_false] at h ⊢
      exact downloadFromZipSource_success appId source (env.zipEnv source) h

theorem downloadFromMultiSources_success (appId : String) (env : MultiEnv) :
    ∀ sources : List SourceConfig,
      (downloadFromMultiSources appId sources env).success = true →
      (downloadFromMultiSources appId sources env).depotKeys ≠ [] ∨
        (downloadFromMultiSources appId sources env).manifests ≠ [] := by
  intro sources
  induction sources with
  | nil => intro h; simp [downloadFromMultiSources] at h
  | cons s rest ih =>
    intro h
    by_cases hen : s.enabled = true
    · by_cases hs : (multiSourceAttempt appId env s).success = true
      · simp only [downloadFromMultiSources, hen, Bool.not_true, Bool.false_eq_true,
          if_false, hs, if_true] at h ⊢
        rcases multiSourceAttempt_success appId env s hs with hk | hm
        · exact Or.inl (by rw [(withGameName_fields env.gameName _).1]; exact hk)
        · exact Or.inr (by rw [(withGameName_fields env.gameName _).2]; exact hm)
      · simpa only [downloadFromMultiSources, hen, Bool.not_true, Bool.false_eq_true,
          if_false, hs, ite_false] using ih (by
            simpa only [downloadFromMultiSources, hen, Bool.not_true, Bool.false_eq_true,
              if_false, hs, ite_false] using h)
    · have hen' : s.enabled = false := by
        cases he : s.enabled
        · rfl
        · exact absurd he hen
      simpa only [downloadFromMultiSources, hen', Bool.not_false, if_true] using
        ih (by simpa only [downloadFromMultiSources, hen', Bool.not_false, if_true] using h)

/-- C2 amended: for the tree-style repository resolver, the ManifestHub
resolver, and every multi-source resolver (zip mirror, key-value API,
session API, and their dispatch loop), a result with the success flag set
has a non-empty depot-key list or a non-empty manifest collection.  The
branch-style repository resolver does not satisfy the invariant: its
successful results carry both lists empty, with the payload in the stored
zip (see the counterexample). -/
theorem resolver_success_invariant_amended :
    (∀ (repo : RepoConfig) (appId : String) (env : NonBranchEnv),
      (downloadFromNonBranchRepo repo appId env).success = true →
      (downloadFromNonBranchRepo repo appId env).depotKeys ≠ [] ∨
        (downloadFromNonBranchRepo repo appId env).manifests ≠ []) ∧
    (∀ (appId : String) (env : HubEnv),
      (fetchFromManifestHub appId env).1.success = true →
      (fetchFromManifestHub appId env).1.depotKeys ≠ [] ∨
        (fetchFromManifestHub appId env).1.manifests ≠ []) ∧
    (∀ (appId : String) (source : SourceConfig) (env : ZipSourceEnv),
      (downloadFromZipSource appId source env).success = true →
      (downloadFromZipSource appId source env).depotKeys ≠ [] ∨
        (downloadFromZipSource appId source env).manifests ≠ []) ∧
    (∀ (appId : String) (env : SacV2Env),
      (downloadFromSteamAutoCracksV2 appId env).success = true →
      (downloadFromSteamAutoCracksV2 appId env).depotKeys ≠ [] ∨
        (downloadFromSteamAutoCracksV2 appId env).manifests ≠ []) ∧
    (∀ (appId : String) (env : BuqiurenEnv),
      (downloadFromBuqiuren appId env).success = true →
      (downloadFromBuqiuren appId env).depotKeys ≠ [] ∨
        (downloadFromBuqiuren appId env).manifests ≠ []) ∧
    (∀ (appId : String) (sources : List SourceConfig) (env : MultiEnv),
      (downloadFromMultiSources appId sources env).success = true →
      (downloadFromMultiSources appId sources env).depotKeys ≠ [] ∨
        (downloadFromMultiSources appId sources env).manifests ≠ []) :=
  ⟨fun repo appId env h => Or.inr (downloadFromNonBranchRepo_success repo appId env h),
    fun appId env h => fetchFromManifestHub_success appId env h,
    fun appId source env h => downloadFromZipSource_success appId source env h,
    fun appId env h => Or.inr (downloadFromSteamAutoCracksV2_success appId env h),
    fun appId env h => Or.inr (downloadFromBuqiuren_success appId env h),
    fun appId sources env h => downloadFromMultiSources_success appId env sources h⟩

/-- Witness for the amended C2 theorem: a successful hub resolution. -/
theorem resolver_success_invariant_amended_witness :
    (fetchFromManifestHub "1"
        { enabled := true, includeDLC := false, depotKeySource := "SAC",
          keysResp := some [("1", "k")], manifestsResp := some [("1", "m")],
          refreshedResp := none, dlcResp := [] }).1.success = true ∧
      ((fetchFromManifestHub "1"
          { enabled := true, includeDLC := false, depotKeySource := "SAC",
            keysResp := some [("1", "k")], manifestsResp := some [("1", "m")],
            refreshedResp := none, dlcResp := [] }).1.depotKeys ≠ [] ∨
        (fetchFromManifestHub "1"
            { enabled := true, includeDLC := false, depotKeySource := "SAC",
              keysResp := some [("1", "k")], manifestsResp := some [("1", "m")],
              refreshedResp := none, dlcResp := [] }).1.manifests ≠ []) :=
  ⟨by decide,
    resolver_success_invariant_amended.2.1 "1"
      { enabled := true, includeDLC := false, depotKeySource := "SAC",
        keysResp := some [("1", "k")], manifestsResp := some [("1", "m")],
        refreshedResp := none, dlcResp := [] } (by decide)⟩

/-! ### Claim C4: the merge rule -/

/-- C4: when the saved hub result carries manifests but no keys and the
successful tree-style repository result carries keys, and the merged
archive write succeeds, the merge step produces a result taking its
manifests from the hub result and its keys from the repository result,
regenerates the unlock script from that combination, and labels the source
as the composite of both; and when the hub result has no manifests at all
no merge happens — the repository result is returned untouched (game name
lookup empty). -/
theorem mergeRule_meets_spec :
    (∀ (appId : String) (setMid : Bool) (gameName : Option String)
        (hr : HubResult) (repoResult : DownloadResult),
      hr.depotKeys = [] → repoResult.depotKeys ≠ [] → hr.manifests ≠ [] →
      orchMergeStep appId setMid true gameName (some hr) repoResult =
        ({ success := true, appId, depotKeys := repoResult.depotKeys,
           manifests := manifestNames hr.manifests, isBranch := false,
           zipPath := some (appId ++ ".zip"),
           sourceRepo := some ("ManifestHub + " ++ repoResult.sourceRepo.getD "undefined"),
           gameName := gameName },
         some (generateManifestHubLua appId repoResult.depotKeys hr.manifests hr.dlcIds
           setMid))) ∧
    (∀ (appId : String) (setMid mergeZipOk : Bool) (hr : HubResult)
        (repoResult : DownloadResult),
      hr.manifests = [] →
      orchMergeStep appId setMid mergeZipOk none (some hr) repoResult =
        (repoResult, none)) := by
  constructor
  · intro appId setMid gameName hr repoResult hk hrk hm
    have h1 : hr.depotKeys.isEmpty = true := by rw [hk]; rfl
    have h2 : repoResult.depotKeys.isEmpty = false := by
      cases hd : repoResult.depotKeys with
      | nil => exact absurd hd hrk
      | cons a l => rfl
    have h3 : hr.manifests.isEmpty = false := by
      cases hd : hr.manifests with
      | nil => exact absurd hd hm
      | cons a l => rfl
    simp [orchMergeStep, h1, h2, h3]
  · intro appId setMid mergeZipOk hr repoResult hm
    have h3 : hr.manifests.isEmpty = true := by rw [hm]; rfl
    simp [orchMergeStep, h3, withGameName]

/-- Witness for C4 at concrete hub and repository results. -/
theorem mergeRule_meets_spec_witness :
    (c4HubResult.depotKeys = [] ∧ c4RepoResult.depotKeys ≠ [] ∧
        c4HubResult.manifests ≠ []) ∧
      orchMergeStep "1" false true none (some c4HubResult) c4RepoResult =
        ({ success := true, appId := "1", depotKeys := c4RepoResult.depotKeys,
           manifests := manifestNames c4HubResult.manifests, isBranch := false,
           zipPath := some ("1" ++ ".zip"),
           sourceRepo := some ("ManifestHub + " ++ c4RepoResult.sourceRepo.getD "undefined"),
           gameName := none },
         some (generateManifestHubLua "1" c4RepoResult.depotKeys c4HubResult.manifests
           c4HubResult.dlcIds false)) :=
  ⟨⟨rfl, by decide, by decide⟩,
    mergeRule_meets_spec.1 "1" false none c4HubResult c4RepoResult rfl
      (by decide) (by decide)⟩

/-! ### Claim C7: the two repository passes and the fallback scenario -/

theorem repoPass_stops_at_first_success (outcome : RepoConfig → DownloadResult) :
    ∀ repos : List RepoConfig,
      (repoPass outcome repos).1 =
          (repos.find? (fun r => (outcome r).success)).map outcome ∧
        (repoPass outcome repos).2 =
          (repos.takeWhile (fun r => !(outcome r).success)).map RepoConfig.name ++
            ((repos.find? (fun r => (outcome r).success)).map RepoConfig.name).toList := by
  intro repos
  induction repos with
  | nil => simp [repoPass]
  | cons r rest ih =>
    by_cases hs : (outcome r).success = true
    · simp [repoPass, hs, List.find?_cons_of_pos, List.takeWhile_cons]
    · have hs' : (outcome r).success = false := by
        cases hv : (outcome r).success
        · rfl
        · exact absurd hv hs
      simp [repoPass, hs', List.find?_cons_of_neg, List.takeWhile_cons, ih]

theorem repoPass_trace_mem (outcome : RepoConfig → DownloadResult) :
    ∀ (repos : List RepoConfig) (n : String),
      n ∈ (repoPass outcome repos).2 → n ∈ repos.map RepoConfig.name := by
  intro repos
  induction repos with
  | nil => intro n hn; simp [repoPass] at hn
  | cons r rest ih =>
    intro n hn
    by_cases hs : (outcome r).success = true
    · simp only [repoPass, hs, if_true, List.mem_singleton] at hn
      simp [hn]
    · simp only [repoPass] at hn
      rw [if_neg hs] at hn
      rcases List.mem_cons.mp hn with h | h
      · simp [h]
      · rw [List.map_cons]
        exact List.mem_cons.mpr (Or.inr (ih n h))

/-- C7: each repository pass stops at the first success (its result is the
first successful repository in order, its attempts are the failing
production up to and including it); every name a pass attempts belongs to
the repository list it was given, and — when the hub does not short-circuit
and the guard passes — the orchestrator attempts are exactly the
branch-pass attempts over the Branch-typed enabled repositories followed,
only when that pass found no success, by the tree-pass attempts over the
remaining enabled repositories; in the concrete scenario (hub totally
failed, branch repository 404, tree repository valid) the final result is
the tree-style repository result unmodified. -/
theorem repoFallback_meets_spec :
    (∀ (outcome : RepoConfig → DownloadResult) (repos : List RepoConfig),
      (repoPass outcome repos).1 =
          (repos.find? (fun r => (outcome r).success)).map outcome ∧
        (repoPass outcome repos).2 =
          (repos.takeWhile (fun r => !(outcome r).success)).map RepoConfig.name ++
            ((repos.find? (fun r => (outcome r).success)).map RepoConfig.name).toList) ∧
    (∀ (outcome : RepoConfig → DownloadResult) (repos : List RepoConfig) (n : String),
      n ∈ (repoPass outcome repos).2 → n ∈ repos.map RepoConfig.name) ∧
    (∀ (appId : String) (env : OrchEnv),
      isValidAppId appId = true →
      hubDirectOf appId env = none →
      (((env.repos.filter (fun r => r.enabled)).isEmpty &&
        (hubSavedOf env).isNone) = false) →
      (downloadSteamDepot appId env).attempts =
        (repoPass env.branchOutcome
            ((env.repos.filter (fun r => r.enabled)).filter
              (fun r => r.rtype == "Branch"))).2 ++
          (if (repoPass env.branchOutcome
              ((env.repos.filter (fun r => r.enabled)).filter
                (fun r => r.rtype == "Branch"))).1.isSome then []
           else (repoPass env.nonBranchOutcome
              ((env.repos.filter (fun r => r.enabled)).filter
                (fun r => !(r.rtype == "Branch")))).2)) ∧
    downloadSteamDepot "730" c7Env = ⟨c7TreeResult, none, ["b", "t"]⟩ := by
  refine ⟨repoPass_stops_at_first_success, repoPass_trace_mem, ?_, ?_⟩
  · intro appId env h1 h2 h3
    simp only [downloadSteamDepot, h1, h2, h3, Bool.not_true, Bool.false_eq_true,
      if_false]
    cases hbp : (repoPass env.branchOutcome
        ((env.repos.filter (fun r => r.enabled)).filter
          (fun r => r.rtype == "Branch"))).1 with
    | some r => simp [hbp]
    | none =>
      cases htp : (repoPass env.nonBranchOutcome
          ((env.repos.filter (fun r => r.enabled)).filter
            (fun r => !(r.rtype == "Branch")))).1 with
      | some repoResult => simp [hbp, htp]
      | none =>
        cases hho : orchHubOnly appId env.hubSetManifestId env.hubOnlyZipOk env.gameName
            (hubSavedOf env) with
        | some rl => simp [hbp, htp, hho]
        | none => simp [hbp, htp, hho]
  · decide

/-- Witness for C7: the two-pass attempts equality instantiated at the
scenario environment. -/
theorem repoFallback_meets_spec_witness :
    (isValidAppId "730" = true ∧ hubDirectOf "730" c7Env = none ∧
        (((c7Env.repos.filter (fun r => r.enabled)).isEmpty &&
          (hubSavedOf c7Env).isNone) = false)) ∧
      (downloadSteamDepot "730" c7Env).attempts =
        (repoPass c7Env.branchOutcome
            ((c7Env.repos.filter (fun r => r.enabled)).filter
              (fun r => r.rtype == "Branch"))).2 ++
          (if (repoPass c7Env.branchOutcome
              ((c7Env.repos.filter (fun r => r.enabled)).filter
                (fun r => r.rtype == "Branch"))).1.isSome then []
           else (repoPass c7Env.nonBranchOutcome
              ((c7Env.repos.filter (fun r => r.enabled)).filter
                (fun r => !(r.rtype == "Branch")))).2) :=
  ⟨⟨by decide, by decide, by decide⟩,
    repoFallback_meets_spec.2.2.1 "730" c7Env (by decide) (by decide) (by decide)⟩

end SteamDepot
